import Mathlib

/-!
# Research assistant web client: event synchronisation engine

A shallow embedding of the three browser scripts

* `web/static/js/graph.js`      (class `GraphManager`),
* `web/static/js/websocket.js`  (class `WebSocketManager`),
* `web/static/js/app.js`        (class `ResearchApp`),

followed by theorems about them.

Conventions of the embedding.

* Mutable object fields and the DOM elements the scripts read and write become
  fields of explicit state records; a method becomes a function from state to
  state.
* A JavaScript value that may be `undefined` or `null` is an `Option`.
* A handler that can throw returns an `Outcome`: the state it leaves behind and
  the exception that escaped, if any.
* Browser services (timers, the socket, `alert`) are recorded in `Page`.
* The page template `index.html` is not part of the sources; the node elements
  of its `.graph-flow` container are a parameter `T : List NodeEl`, the other
  bindings the scripts look up by id are assumed to exist, and no element
  outside the container carries an id the scripts look up inside it.
* `nodeName`, `node`, `chunk` and `error` are strings when present; property
  names inherited from `Object.prototype` are not used as stage names.
* `createDynamicSearchNode` writes the display name of the stage into the
  markup of the new element with `innerHTML`. A `NodeEl` records that markup as
  the two texts it consists of when the name is plain text (`plainText`); the
  further elements a name with markup characters would create are not
  recorded, and statements about the elements of the graph are made for plain
  names.
-/

set_option autoImplicit false

namespace ResearchAssistant

/-! ## Strings -/

/-- `s.startsWith(p)` of JavaScript, for strings seen as character lists. -/
def startsWith (s p : String) : Bool :=
  p.data.isPrefixOf s.data

/-- The characters `String.prototype.trim` removes: ECMAScript `WhiteSpace`
and `LineTerminator`. -/
def isJsWhitespace (c : Char) : Bool :=
  let n := c.toNat
  n == 9 || n == 10 || n == 11 || n == 12 || n == 13 || n == 32 || n == 0xA0 ||
  n == 0x1680 || (0x2000 ≤ n && n ≤ 0x200A) || n == 0x2028 || n == 0x2029 ||
  n == 0x202F || n == 0x205F || n == 0x3000 || n == 0xFEFF

/-- `s.trim()` of JavaScript. -/
def jsTrim (s : String) : String :=
  ⟨((s.data.dropWhile isJsWhitespace).reverse.dropWhile isJsWhitespace).reverse⟩

/-- Separators of the tokens of a `class` attribute (ASCII whitespace). -/
def isClassSep (c : Char) : Bool :=
  let n := c.toNat
  n == 9 || n == 10 || n == 12 || n == 13 || n == 32

/-- Tokens of a `class` attribute, accumulated right to left. -/
def classTokensAux : List Char → List Char → List (List Char)
  | [], cur => if cur.isEmpty then [] else [cur.reverse]
  | c :: cs, cur =>
    if isClassSep c then
      (if cur.isEmpty then classTokensAux cs [] else cur.reverse :: classTokensAux cs [])
    else classTokensAux cs (c :: cur)

/-- Whether the `class` attribute `cls` carries the token `tok`
(the CSS selector `.tok`). -/
def hasClass (cls tok : String) : Bool :=
  (classTokensAux cls.data []).contains tok.data

/-! ## The graph container of the page -/

/-- A node element `<div class="node ..." id="...">` of the graph: its `id`,
its `className`, the text of its `.node-title` child and the text of its
`.node-status` child (`none` when the element has no such child). Node elements
are leaves for the purposes of the scripts. -/
structure NodeEl where
  id : String
  className : String
  title : String
  status : Option String
deriving DecidableEq, Repr

/-- The element `#dynamic-branching-area`: the text of its `.branch-info` child
and the node elements appended to it. -/
structure BranchArea where
  info : String
  children : List NodeEl
deriving DecidableEq, Repr

/-- Content of the `.graph-flow` container in document order: node elements
before the branching area, the branching area when the layout has one, node
elements after it. The only element with children of its own is the branching
area. -/
structure Flow where
  before : List NodeEl
  area : Option BranchArea
  after : List NodeEl
deriving DecidableEq, Repr

/-- The linear layout made of the template's node elements. -/
def Flow.linear (T : List NodeEl) : Flow :=
  { before := T, area := none, after := [] }

/-- Whether `graphFlow.innerHTML` is the empty string (falsy in JavaScript):
the container has no child. -/
def Flow.isEmptyMarkup (f : Flow) : Bool :=
  f.before.isEmpty && f.area.isNone && f.after.isEmpty

/-- Whether some node element of the list has the given id. -/
def hasId (id : String) (l : List NodeEl) : Bool :=
  l.any (fun e => e.id == id)

/-- Apply `f` to the first element of the list with the given id. -/
def modifyFirst (id : String) (f : NodeEl → NodeEl) : List NodeEl → List NodeEl
  | [] => []
  | e :: es => if e.id == id then f e :: es else e :: modifyFirst id f es

/-- The first element of the list with the given id. -/
def findFirst (id : String) : List NodeEl → Option NodeEl
  | [] => none
  | e :: es => if e.id == id then some e else findFirst id es

/-- Truthiness of `document.getElementById(id)` inside the graph container. -/
def Flow.hasElement (f : Flow) (id : String) : Bool :=
  hasId id f.before ||
  (match f.area with
   | some a => id == "dynamic-branching-area" || hasId id a.children
   | none => false) ||
  hasId id f.after

/-- The node element `document.getElementById(id)` returns, if it is a node
element (the first one in document order). -/
def Flow.findNode (f : Flow) (id : String) : Option NodeEl :=
  match findFirst id f.before with
  | some e => some e
  | none =>
    match f.area with
    | some a =>
      if id == "dynamic-branching-area" then none
      else
        match findFirst id a.children with
        | some e => some e
        | none => findFirst id f.after
    | none => findFirst id f.after

/-- Apply `g` to the node element `document.getElementById(id)` returns, if it
is a node element. -/
def Flow.modifyNode (f : Flow) (id : String) (g : NodeEl → NodeEl) : Flow :=
  if hasId id f.before then { f with before := modifyFirst id g f.before }
  else
    match f.area with
    | some a =>
      if id == "dynamic-branching-area" then f
      else if hasId id a.children then
        { f with area := some { a with children := modifyFirst id g a.children } }
      else { f with after := modifyFirst id g f.after }
    | none => { f with after := modifyFirst id g f.after }

/-- All node elements of the container, in document order. -/
def Flow.nodes (f : Flow) : List NodeEl :=
  f.before ++ (match f.area with | some a => a.children | none => []) ++ f.after

/-! ## `GraphManager` (graph.js) -/

/-- The fields of a `GraphManager` together with the `.graph-flow` subtree of
the document it reads and rewrites. `originalFlow` is the saved `innerHTML`
snapshot (`none` for `null`). -/
structure GraphManager where
  dynamicNodes : List String
  originalFlow : Option Flow
  flow : Flow
deriving DecidableEq, Repr

namespace GraphManager

/-- The table `this.nodeMapping` (own properties). -/
def nodeMapping (nodeName : String) : Option String :=
  if nodeName = "classify_intent_and_topic" then some "node-classify"
  else if nodeName = "generate_search_queries" then some "node-queries"
  else if nodeName = "execute_parallel_search" then some "node-search"
  else if nodeName = "merge_search_results" then some "node-merge"
  else if nodeName = "synthesize_and_report" then some "node-report"
  else none

/-- `Object.values(this.nodeMapping)`, in insertion order. -/
def staticIds : List String :=
  ["node-classify", "node-queries", "node-search", "node-merge", "node-report"]

/-- State after `new GraphManager()` on a page whose graph container holds the
node elements `T`. -/
def new (T : List NodeEl) : GraphManager :=
  { dynamicNodes := [], originalFlow := none, flow := Flow.linear T }

/-- The element id `updateNodeStatus` resolves a stage name to: the static
mapping first, then the dynamic naming convention. -/
def resolveId (nodeName : String) : Option String :=
  match nodeMapping nodeName with
  | some id => some id
  | none => if startsWith nodeName "search_query_" then some ("dynamic-" ++ nodeName) else none

/-- What `updateNodeStatus` does to the element it found. -/
def setStatus (status statusText : String) (e : NodeEl) : NodeEl :=
  { e with className := "node " ++ status, status := e.status.map (fun _ => statusText) }

/-- `updateNodeStatus(nodeName, status, statusText)` for a string `nodeName`. -/
def updateNodeStatus (g : GraphManager) (nodeName status statusText : String) : GraphManager :=
  match resolveId nodeName with
  | none => g
  | some nodeId => { g with flow := g.flow.modifyNode nodeId (setStatus status statusText) }

/-- The table `names` of `getNodeDisplayName` (own properties). -/
def displayNames (nodeName : String) : Option String :=
  if nodeName = "classify_intent_and_topic" then some "意図判定"
  else if nodeName = "generate_search_queries" then some "クエリ生成"
  else if nodeName = "execute_parallel_search" then some "並行検索"
  else if nodeName = "merge_search_results" then some "結果合流"
  else if nodeName = "synthesize_and_report" then some "レポート生成"
  else none

/-- `getNodeDisplayName(nodeName)` for a string `nodeName`. For a name with the
dynamic marker in front, `replace` removes that first occurrence, i.e. the
first 13 characters. -/
def getNodeDisplayName (nodeName : String) : String :=
  if startsWith nodeName "search_query_" then "検索" ++ String.mk (nodeName.data.drop 13)
  else
    match displayNames nodeName with
    | some n => if n = "" then nodeName else n
    | none => nodeName

/-- The markup `createDynamicBranchingLayout` installs. -/
def branchingLayout : Flow :=
  { before :=
      [ { id := "node-classify", className := "node pending", title := "🎯 意図判定",
          status := some "待機中" },
        { id := "node-queries", className := "node pending", title := "🔍 クエリ生成",
          status := some "待機中" },
        { id := "node-merge", className := "node pending", title := "🔗 結果合流",
          status := some "待機中" } ],
    area := some { info := "検索クエリの並行実行", children := [] },
    after :=
      [ { id := "node-report", className := "node pending", title := "📝 レポート生成",
          status := some "待機中" } ] }

/-- `createDynamicBranchingLayout()`. -/
def createDynamicBranchingLayout (g : GraphManager) : GraphManager :=
  { g with flow := branchingLayout }

/-- Truthiness of `this.originalFlow`: not `null` and not the empty string. -/
def hasSnapshot (g : GraphManager) : Bool :=
  match g.originalFlow with
  | none => false
  | some f => !f.isEmptyMarkup

/-- Whether `innerHTML` reads the string as text and nothing else: it has no
`<` (start of a tag), no `&` (start of a character reference), no carriage
return (rewritten to a line feed) and no NUL (dropped). -/
def plainText (s : String) : Bool :=
  s.data.all (fun c => !(c == '<' || c == '&' || c == '\r' || c.toNat == 0))

/-- The element `createDynamicSearchNode` builds for a new dynamic stage whose
name is plain text: the parsed markup is a `.node-title` with the display name
and a `.node-status`. For a name with markup characters the parser creates
further elements inside the new one; they are not part of this record. -/
def dynamicEl (nodeName : String) : NodeEl :=
  { id := "dynamic-" ++ nodeName, className := "node pending",
    title := "🔍 " ++ getNodeDisplayName nodeName, status := some "待機中" }

/-- `createDynamicSearchNode(nodeName)` for a string `nodeName`. The lookup of
`#dynamic-branching-area` finds the area of the layout: node elements are
leaves, none of them can stand in for it. The existence check looks at the node
elements and the area, which are all the elements with an id as long as the
names of the dynamic stages are plain text. -/
def createDynamicSearchNode (g : GraphManager) (nodeName : String) : GraphManager :=
  let nodeId := "dynamic-" ++ nodeName
  if g.flow.hasElement nodeId then g
  else
    let g1 : GraphManager :=
      if g.hasSnapshot then g else { g with originalFlow := some g.flow }
    let g2 : GraphManager :=
      if g1.dynamicNodes.length = 0 then createDynamicBranchingLayout g1 else g1
    let node : NodeEl := dynamicEl nodeName
    let dyn := g2.dynamicNodes ++ [nodeName]
    let flow :=
      match g2.flow.area with
      | some a =>
        { g2.flow with
          area := some { info := toString dyn.length ++ "個の並行検索実行中",
                         children := a.children ++ [node] } }
      | none => g2.flow
    { g2 with dynamicNodes := dyn, flow := flow }

/-- What `resetNodes` does to each static element it finds. -/
def resetEl (e : NodeEl) : NodeEl :=
  { e with className := "node pending", status := e.status.map (fun _ => "待機中") }

/-- The `forEach` of `resetNodes` over the static element ids. -/
def resetStatic (f : Flow) : Flow :=
  staticIds.foldl (fun fl id => fl.modifyNode id resetEl) f

/-- `resetNodes()`: the synchronous part (the deferred progress refresh is
scheduled by the caller of this function, see `ResearchApp.startExecution`). -/
def resetNodes (g : GraphManager) : GraphManager :=
  let g1 : GraphManager := { g with dynamicNodes := [] }
  let g2 : GraphManager :=
    match g1.originalFlow with
    | some snap => if snap.isEmptyMarkup then g1 else { g1 with flow := snap, originalFlow := none }
    | none => g1
  { g2 with flow := resetStatic g2.flow }

/-- `getDynamicNodeCount()`. -/
def getDynamicNodeCount (g : GraphManager) : Nat :=
  g.dynamicNodes.length

/-- The text `updateProgress()` writes to `#progress`: completed over total,
counted over the elements matching `.node.completed` and `.node`. -/
def progressText (g : GraphManager) : String :=
  let total := (g.flow.nodes.filter (fun e => hasClass e.className "node")).length
  let completed :=
    (g.flow.nodes.filter
      (fun e => hasClass e.className "node" && hasClass e.className "completed")).length
  toString completed ++ "/" ++ toString total

/-- The `className` of the element a stage name resolves to, when there is one. -/
def classOf (g : GraphManager) (nodeName : String) : Option String :=
  match resolveId nodeName with
  | none => none
  | some id => (g.flow.findNode id).map (fun e => e.className)

/-- Number of node elements with the given id in the container. -/
def countId (g : GraphManager) (id : String) : Nat :=
  (g.flow.nodes.filter (fun e => e.id == id)).length

end GraphManager

/-! ## The rest of the page and the browser services -/

/-- A child of `#liveOutput`: a log line appended by `addLog` (message and
type; the time stamp in front of the message is not recorded) or a streaming
line appended by `addStreamingChunk` (display name and chunk). -/
inductive LogEntry where
  | log (message type : String)
  | streaming (display chunk : String)
deriving DecidableEq, Repr

/-- What a pending `setTimeout` callback will do. -/
inductive TimeoutAction where
  | reconnect
  | refreshProgress
deriving DecidableEq, Repr

/-- A pending `setTimeout`: timer id, delay in milliseconds, callback. -/
structure Timeout where
  id : Nat
  delay : Nat
  action : TimeoutAction
deriving DecidableEq, Repr

/-- The message `sendResearchRequest` serialises and sends. -/
structure Outbound where
  type : String
  query : String
deriving DecidableEq, Repr

/-- One call of `updateReportContent`: the text it was given and whether it
appended the progress indicator to the markup. -/
structure RenderPass where
  content : String
  progress : Bool
deriving DecidableEq, Repr

/-- Content of `#reportStreaming`: as the page was loaded or emptied, the
placeholder of `showReportSection`, or the markup of a render pass. -/
inductive ReportMarkup where
  | empty
  | placeholder
  | rendered (pass : RenderPass)
deriving DecidableEq, Repr

/-- The page bindings other than the graph container, and the browser services
the scripts use. `intervals` are the ids of the live `setInterval` timers (all
of them run the elapsed-time tick every 1000 ms), `timeouts` the pending
`setTimeout` callbacks; `renders` is the history of render passes. -/
structure Page where
  startBtnDisabled : Bool
  queryInput : String
  liveOutput : List LogEntry
  connectionStatus : String
  connectionText : String
  progress : String
  reportDisplay : String
  reportStreaming : ReportMarkup
  now : Nat
  nextTimer : Nat
  intervals : List Nat
  timeouts : List Timeout
  sent : List Outbound
  alerts : List String
  renders : List RenderPass
deriving DecidableEq, Repr

namespace Page

/-- The body shared by both `addLog` methods. -/
def addLog (p : Page) (message type : String) : Page :=
  { p with liveOutput := p.liveOutput ++ [LogEntry.log message type] }

/-- `setTimeout(callback, delay)`. -/
def setTimeout (p : Page) (delay : Nat) (action : TimeoutAction) : Page :=
  { p with timeouts := p.timeouts ++ [{ id := p.nextTimer, delay := delay, action := action }],
           nextTimer := p.nextTimer + 1 }

/-- `setInterval(tick, 1000)`: the new timer id and the page. -/
def setInterval (p : Page) : Nat × Page :=
  (p.nextTimer, { p with intervals := p.intervals ++ [p.nextTimer], nextTimer := p.nextTimer + 1 })

/-- `clearInterval(handle)`: a no-op for `null`; timers of both kinds share one
id space. -/
def clearInterval (p : Page) (handle : Option Nat) : Page :=
  match handle with
  | none => p
  | some i =>
    { p with intervals := p.intervals.filter (fun j => j != i),
             timeouts := p.timeouts.filter (fun t => t.id != i) }

end Page

/-! ## `WebSocketManager` (websocket.js) -/

/-- `WebSocket.readyState`. -/
inductive ReadyState where
  | connecting
  | isOpen
  | closing
  | closed
deriving DecidableEq, Repr

/-- The fields of a `WebSocketManager`; `ws` is `none` for `null`, otherwise
the ready state of the socket. The registered callback is an argument of
`onmessage`. -/
structure WebSocketManager where
  ws : Option ReadyState
  researchCompleted : Bool
  isResearching : Bool
deriving DecidableEq, Repr

namespace WebSocketManager

/-- State after `new WebSocketManager()`. -/
def new : WebSocketManager :=
  { ws := none, researchCompleted := false, isResearching := false }

/-- `connect()`: a fresh socket, still connecting. -/
def connect (m : WebSocketManager) : WebSocketManager :=
  { m with ws := some ReadyState.connecting }

/-- `updateConnectionStatus(connected)`. -/
def updateConnectionStatus (p : Page) (connected : Bool) : Page :=
  if connected then
    { p with connectionStatus := "connection-status connected", connectionText := "接続済み" }
  else
    { p with connectionStatus := "connection-status disconnected", connectionText := "切断" }

/-- The handler `ws.onopen`. -/
def onopen (p : Page) : Page :=
  (updateConnectionStatus p true).addLog "WebSocket接続が確立されました" "success"

/-- The handler `ws.onclose`; it reads the two flags and writes to the page. -/
def onclose (m : WebSocketManager) (p : Page) : Page :=
  let p1 := updateConnectionStatus p false
  if !m.researchCompleted && m.isResearching then
    (p1.addLog "⚠️ 接続が予期せず切断されました" "warning").setTimeout 3000 TimeoutAction.reconnect
  else if m.researchCompleted then
    p1
  else
    (p1.addLog "接続が切断されました" "info").setTimeout 5000 TimeoutAction.reconnect

/-- The handler `ws.onerror`. -/
def onerror (m : WebSocketManager) (p : Page) : Page :=
  if m.isResearching then p.addLog "⚠️ 接続エラーが発生しました" "warning" else p

/-- `sendResearchRequest(query)`: the returned boolean and the page. -/
def sendResearchRequest (m : WebSocketManager) (p : Page) (query : String) : Bool × Page :=
  if m.ws = some ReadyState.isOpen then
    (true, { p with sent := p.sent ++ [{ type := "research", query := query }] })
  else
    (false, p.addLog "WebSocket接続がありません" "error")

/-- `setResearchState(researching, completed)`; a caller that omits the second
argument passes its default `false`. -/
def setResearchState (m : WebSocketManager) (researching completed : Bool) : WebSocketManager :=
  { m with isResearching := researching, researchCompleted := completed }

end WebSocketManager

/-! ## `ResearchApp` (app.js) -/

/-- An inbound update object: the properties `handleGraphUpdate` and
`handleNodeComplete` read from it. `searchQueries` is
`update.state?.search_queries?.length`, taken to be the length of an array or
of a string: a natural number, printed in decimal. A JSON value that is not an
object (other than `null`) has none of the properties. -/
structure Update where
  type : Option String
  node : Option String
  chunk : Option String
  error : Option String
  searchQueries : Option Nat
deriving DecidableEq, Repr

/-- Result of `JSON.parse` when it returns: `null` or a value with properties. -/
inductive JsonValue where
  | null
  | object (u : Update)
deriving DecidableEq, Repr

/-- Exceptions the handlers can let escape. -/
inductive JsError where
  | parseError
  | typeError
deriving DecidableEq, Repr

/-- The fields of a `ResearchApp` and the page it runs on. -/
structure ResearchApp where
  wsManager : WebSocketManager
  graphManager : GraphManager
  startTime : Option Nat
  executionTimer : Option Nat
  reportBuffer : String
  currentReportNode : Option String
  page : Page
deriving DecidableEq, Repr

/-- What a handler leaves behind: the state, and the exception that escaped it
(`none` when it returned normally). -/
structure Outcome where
  state : ResearchApp
  raised : Option JsError
deriving DecidableEq, Repr

namespace ResearchApp

/-- The id of the report-producing stage, a literal of app.js. -/
def reportNode : String := "synthesize_and_report"

/-- Normal return. -/
def done (a : ResearchApp) : Outcome := { state := a, raised := none }

/-- `addLog(message, type)`. -/
def addLog (a : ResearchApp) (message type : String) : ResearchApp :=
  { a with page := a.page.addLog message type }

/-- `initMarkdown()`; `showdownLoaded` is `typeof showdown !== 'undefined'`. -/
def initMarkdown (a : ResearchApp) (showdownLoaded : Bool) : ResearchApp :=
  if showdownLoaded then a
  else a.addLog "⚠️ マークダウンライブラリが読み込まれていません" "warning"

/-- State after `new ResearchApp()` on the page `p` whose graph container holds
the node elements `T`: the constructor, then `init()` (registration of the
callback and of the UI handlers, `connect()`, `initMarkdown()`). -/
def new (T : List NodeEl) (p : Page) (showdownLoaded : Bool) : ResearchApp :=
  initMarkdown
    { wsManager := WebSocketManager.new.connect,
      graphManager := GraphManager.new T,
      startTime := none,
      executionTimer := none,
      reportBuffer := "",
      currentReportNode := none,
      page := p }
    showdownLoaded

/-- `showReportSection()`. -/
def showReportSection (a : ResearchApp) : ResearchApp :=
  { a with page := { a.page with reportDisplay := "block",
                                 reportStreaming := ReportMarkup.placeholder } }

/-- `resetReportSection()`. -/
def resetReportSection (a : ResearchApp) : ResearchApp :=
  { a with page := { a.page with reportDisplay := "none", reportStreaming := ReportMarkup.empty },
           reportBuffer := "",
           currentReportNode := none }

/-- `updateReportContent(content)`: the markup written to `#reportStreaming`
is recorded as the render pass that produced it. -/
def updateReportContent (a : ResearchApp) (content : String) : ResearchApp :=
  let pass : RenderPass :=
    { content := content, progress := decide (a.currentReportNode = some reportNode) }
  { a with page := { a.page with reportStreaming := ReportMarkup.rendered pass,
                                 renders := a.page.renders ++ [pass] } }

/-- `addStreamingChunk(node, chunk)` for a string `node`. -/
def addStreamingChunk (a : ResearchApp) (node chunk : String) : ResearchApp :=
  { a with page := { a.page with
      liveOutput := a.page.liveOutput ++
        [LogEntry.streaming (GraphManager.getNodeDisplayName node) chunk] } }

/-- `handleNodeStart(node)`; `node.startsWith` throws when `node` is missing. -/
def handleNodeStart (a : ResearchApp) (node : Option String) : Outcome :=
  match node with
  | none => { state := a, raised := some JsError.typeError }
  | some n =>
    let a1 : ResearchApp :=
      if startsWith n "search_query_" then
        let g1 := a.graphManager.createDynamicSearchNode n
        let g2 := g1.updateNodeStatus n "in-progress" "実行中..."
        addLog { a with graphManager := g2 }
          ("🔍 " ++ GraphManager.getNodeDisplayName n ++ ": 並行検索開始") "info"
      else
        let g1 := a.graphManager.updateNodeStatus n "in-progress" "実行中..."
        addLog { a with graphManager := g1 }
          ("📍 " ++ GraphManager.getNodeDisplayName n ++ ": 開始") "info"
    if n = reportNode then
      done { showReportSection a1 with reportBuffer := "", currentReportNode := some n }
    else done a1

/-- `handleNodeComplete(node, update)`; `updateNodeStatus` throws on its first
lines when `node` is missing. -/
def handleNodeComplete (a : ResearchApp) (node : Option String) (u : Update) : Outcome :=
  match node with
  | none => { state := a, raised := some JsError.typeError }
  | some n =>
    let a1 : ResearchApp :=
      { a with graphManager := a.graphManager.updateNodeStatus n "completed" "完了" }
    let name := GraphManager.getNodeDisplayName n
    let a2 : ResearchApp :=
      if n = "generate_search_queries" then
        let queryCount := u.searchQueries.getD 0
        a1.addLog ("✅ " ++ name ++ ": " ++ toString queryCount ++ "個のクエリを生成") "success"
      else if n = "merge_search_results" then
        let dynamicNodeCount := a1.graphManager.getDynamicNodeCount
        a1.addLog ("✅ " ++ name ++ ": " ++ toString dynamicNodeCount ++ "個の検索結果を統合")
          "success"
      else if startsWith n "search_query_" then
        a1.addLog ("✅ " ++ name ++ ": 検索完了") "success"
      else
        a1.addLog ("✅ " ++ name ++ ": 完了") "success"
    let a3 : ResearchApp :=
      { a2 with page := { a2.page with progress := a2.graphManager.progressText } }
    if n = reportNode then
      let a4 : ResearchApp := { a3 with currentReportNode := none }
      done (a4.updateReportContent a4.reportBuffer)
    else done a3

/-- `handleStreamingChunk(node, chunk)`; a missing `node` makes
`addStreamingChunk` throw before it appends anything. -/
def handleStreamingChunk (a : ResearchApp) (node chunk : Option String) : Outcome :=
  match chunk with
  | none => done a
  | some c =>
    if node = some reportNode then
      let a1 : ResearchApp := { a with reportBuffer := a.reportBuffer ++ c }
      done (a1.updateReportContent a1.reportBuffer)
    else if jsTrim c = "" then done a
    else
      match node with
      | none => { state := a, raised := some JsError.typeError }
      | some n => done (a.addStreamingChunk n c)

/-- `handleError(node, error)`; `updateNodeStatus` throws on its first lines
when `node` is missing. A missing `error` prints as `undefined` (an explicit
`null`, which would print as `null`, is not told apart from it). -/
def handleError (a : ResearchApp) (node error : Option String) : Outcome :=
  match node with
  | none => { state := a, raised := some JsError.typeError }
  | some n =>
    let a1 : ResearchApp :=
      { a with graphManager := a.graphManager.updateNodeStatus n "error" "エラー" }
    let a2 := a1.addLog
      ("❌ " ++ GraphManager.getNodeDisplayName n ++ ": " ++ error.getD "undefined") "error"
    done { a2 with wsManager := a2.wsManager.setResearchState false false }

/-- `startExecution()`. The timeout is the deferred progress refresh that
`resetNodes` schedules. -/
def startExecution (a : ResearchApp) : ResearchApp :=
  let a1 : ResearchApp := { a with startTime := some a.page.now }
  let (timer, p1) := a1.page.setInterval
  let a2 : ResearchApp := { a1 with executionTimer := some timer, page := p1 }
  let a3 : ResearchApp := { a2 with page := { a2.page with startBtnDisabled := true } }
  let a4 : ResearchApp :=
    { a3 with graphManager := a3.graphManager.resetNodes,
              page := a3.page.setTimeout 100 TimeoutAction.refreshProgress }
  let a5 := a4.resetReportSection
  let a6 := a5.addLog "🚀 調査を開始しました" "info"
  { a6 with wsManager := a6.wsManager.setResearchState true false }

/-- `completeExecution()`. -/
def completeExecution (a : ResearchApp) : ResearchApp :=
  let a1 : ResearchApp := { a with page := a.page.clearInterval a.executionTimer }
  let a2 : ResearchApp := { a1 with page := { a1.page with startBtnDisabled := false } }
  let a3 := a2.addLog "🎉 調査が完了しました" "success"
  { a3 with wsManager := a3.wsManager.setResearchState false true }

/-- `handleGraphUpdate(update)`; destructuring `null` throws. -/
def handleGraphUpdate (a : ResearchApp) (update : JsonValue) : Outcome :=
  match update with
  | JsonValue.null => { state := a, raised := some JsError.typeError }
  | JsonValue.object u =>
    if u.type = some "start" then done a.startExecution
    else if u.type = some "node_start" then a.handleNodeStart u.node
    else if u.type = some "node_complete" then a.handleNodeComplete u.node u
    else if u.type = some "streaming_chunk" then a.handleStreamingChunk u.node u.chunk
    else if u.type = some "complete" then done a.completeExecution
    else if u.type = some "error" then a.handleError u.node u.error
    else done a

/-- The handler `ws.onmessage`. `parsed` is what `JSON.parse(event.data)`
produced, `none` when it threw; `callback` is `this.onGraphUpdateCallback`. -/
def onmessage (callback : Option (ResearchApp → JsonValue → Outcome)) (a : ResearchApp)
    (parsed : Option JsonValue) : Outcome :=
  match parsed with
  | none => { state := a, raised := some JsError.parseError }
  | some update =>
    match callback with
    | some f => f a update
    | none => done a

/-- `startResearch()`. -/
def startResearch (a : ResearchApp) : ResearchApp :=
  let query := jsTrim a.page.queryInput
  if query = "" then
    { a with page := { a.page with alerts := a.page.alerts ++ ["調査したいトピックを入力してください"] } }
  else
    let (ok, p1) := a.wsManager.sendResearchRequest a.page query
    if ok then { a with page := { p1 with queryInput := "" } }
    else { a with page := p1 }

/-- One inbound update object delivered to `handleGraphUpdate`; an exception
that escapes the handler ends that delivery only. -/
def dispatch (a : ResearchApp) (u : Update) : ResearchApp :=
  (a.handleGraphUpdate (JsonValue.object u)).state

/-- A sequence of inbound update objects, delivered in order. -/
def run (a : ResearchApp) (us : List Update) : ResearchApp :=
  us.foldl dispatch a

end ResearchApp

/-! ## Inbound events of the protocol -/

namespace Update

/-- The event with `type: "start"`. -/
def start : Update :=
  { type := some "start", node := none, chunk := none, error := none, searchQueries := none }

/-- The event with `type: "node_start"`. -/
def nodeStart (node : String) : Update :=
  { type := some "node_start", node := some node, chunk := none, error := none,
    searchQueries := none }

/-- The event with `type: "node_complete"`. -/
def nodeComplete (node : String) : Update :=
  { type := some "node_complete", node := some node, chunk := none, error := none,
    searchQueries := none }

/-- The event with `type: "streaming_chunk"`. -/
def streamingChunk (node chunk : String) : Update :=
  { type := some "streaming_chunk", node := some node, chunk := some chunk, error := none,
    searchQueries := none }

/-- The event with `type: "complete"`. -/
def complete : Update :=
  { type := some "complete", node := none, chunk := none, error := none, searchQueries := none }

/-- The event with `type: "error"`. -/
def failure (node error : String) : Update :=
  { type := some "error", node := some node, chunk := none, error := some error,
    searchQueries := none }

end Update

/-! ## A concrete page -/

/-- A template with one pending node element per entry of `nodeMapping`. -/
def sampleTemplate : List NodeEl :=
  [ { id := "node-classify", className := "node pending", title := "意図判定",
      status := some "待機中" },
    { id := "node-queries", className := "node pending", title := "クエリ生成",
      status := some "待機中" },
    { id := "node-search", className := "node pending", title := "並行検索",
      status := some "待機中" },
    { id := "node-merge", className := "node pending", title := "結果合流",
      status := some "待機中" },
    { id := "node-report", className := "node pending", title := "レポート生成",
      status := some "待機中" } ]

/-- A freshly loaded page with the given text in the input field. -/
def samplePage (input : String) : Page :=
  { startBtnDisabled := false, queryInput := input, liveOutput := [],
    connectionStatus := "connection-status disconnected", connectionText := "切断",
    progress := "0/5", reportDisplay := "none", reportStreaming := ReportMarkup.empty,
    now := 1000, nextTimer := 1, intervals := [], timeouts := [], sent := [], alerts := [],
    renders := [] }

/-- The application as constructed on the sample page. -/
def sampleApp : ResearchApp :=
  ResearchApp.new sampleTemplate (samplePage "") true

/-! ## Clean-up of the report text -/

/-- `text.replace(/pat\n?/g, '')` for a literal, non-empty `pat`. The text is
scanned left to right; a match is `pat` together with the line feed that
follows it, when there is one; `skip` is the number of characters of the
current match that are still to be deleted. -/
def removeGlobal (pat : List Char) : Nat → List Char → List Char
  | _, [] => []
  | skip + 1, _ :: rest => removeGlobal pat skip rest
  | 0, c :: rest =>
    if pat.isPrefixOf (c :: rest) then
      removeGlobal pat
        (pat.length - 1 + (if (rest.drop (pat.length - 1)).head? = some '\n' then 1 else 0)) rest
    else c :: removeGlobal pat 0 rest

/-- The local `cleanContent` of `updateReportContent`: the two global
replacements, in the order of the source. -/
def cleanContent (content : String) : String :=
  ⟨removeGlobal "```".data 0 (removeGlobal "```markdown".data 0 content.data)⟩

/-- The text a render pass hands to the markdown converter (and to the
fallback when the converter fails). -/
def RenderPass.rendererInput (pass : RenderPass) : String :=
  cleanContent pass.content

/-- The backtick character. -/
def tick : Char := Char.ofNat 96

/-- Three consecutive backticks, the fence marker. -/
def fenceChars : List Char := [tick, tick, tick]

/-! ## Reachable graph states -/

/-- The `forEach` of `resetNodes`, on the node list of a linear layout. -/
def resetList (L : List NodeEl) : List NodeEl :=
  GraphManager.staticIds.foldl (fun l id => modifyFirst id GraphManager.resetEl l) L

/-- Ids of the node elements inside the branching area, when the layout has
one. -/
def Flow.areaIds (f : Flow) : Option (List String) :=
  f.area.map (fun ar => ar.children.map (fun e => e.id))

/-- What is assumed of the page template: its graph container is not empty,
its static stage elements are as `resetNodes` leaves them (class
`node pending`, status text `待機中`), and none of its ids begins with
`dynamic-`. -/
def TemplateOk (T : List NodeEl) : Prop :=
  T ≠ [] ∧
  GraphManager.resetStatic (Flow.linear T) = Flow.linear T ∧
  ∀ e ∈ T, startsWith e.id "dynamic-" = false

/-- Graph states reachable from `new GraphManager()` on a page with template
`T` by calls of the three mutating methods with arbitrary string arguments. -/
inductive Reachable (T : List NodeEl) : GraphManager → Prop where
  | init : Reachable T (GraphManager.new T)
  | create (g : GraphManager) (nodeName : String) :
      Reachable T g → Reachable T (g.createDynamicSearchNode nodeName)
  | update (g : GraphManager) (nodeName status statusText : String) :
      Reachable T g → Reachable T (g.updateNodeStatus nodeName status statusText)
  | reset (g : GraphManager) : Reachable T g → Reachable T g.resetNodes

/-- Graph states reachable from `new GraphManager()` when every dynamic stage
is created under a name that is plain text. On these states the record holds
every element of the container that has an id. -/
inductive ReachablePlain (T : List NodeEl) : GraphManager → Prop where
  | init : ReachablePlain T (GraphManager.new T)
  | create (g : GraphManager) (nodeName : String) :
      GraphManager.plainText nodeName = true →
      ReachablePlain T g → ReachablePlain T (g.createDynamicSearchNode nodeName)
  | update (g : GraphManager) (nodeName status statusText : String) :
      ReachablePlain T g → ReachablePlain T (g.updateNodeStatus nodeName status statusText)
  | reset (g : GraphManager) : ReachablePlain T g → ReachablePlain T g.resetNodes

/-- Representation invariant of the graph state: the elements of the branching
area are exactly the recorded dynamic stages, in order; no stage is recorded
twice; no other element has a dynamic id; the snapshot, or the layout itself
while there is no snapshot, is the template up to the statuses of the static
stages. -/
def GraphInv (T : List NodeEl) (g : GraphManager) : Prop :=
  (g.flow.areaIds = none → g.dynamicNodes = []) ∧
  (∀ ids, g.flow.areaIds = some ids → ids = g.dynamicNodes.map (fun n => "dynamic-" ++ n)) ∧
  g.dynamicNodes.Nodup ∧
  (∀ i ∈ (g.flow.before ++ g.flow.after).map (fun e => e.id), startsWith i "dynamic-" = false) ∧
  (∃ L, (match g.originalFlow with | none => g.flow | some snap => snap) = Flow.linear L ∧
        resetList L = T)

/-! ## Reconnection policy of the close handler -/

/-- C1: the close handler schedules a reconnection exactly when
`researchCompleted` is false; the delay is 3000 ms when `isResearching` is true
and 5000 ms otherwise; when `researchCompleted` is true the pending timeouts and
the log are left as they were. -/
theorem onclose_reconnect_policy (m : WebSocketManager) (p : Page) :
    (WebSocketManager.onclose m p).timeouts =
      (if m.researchCompleted then p.timeouts
       else p.timeouts ++
        [{ id := p.nextTimer, delay := if m.isResearching then 3000 else 5000,
           action := TimeoutAction.reconnect }]) ∧
    ((WebSocketManager.onclose m p).timeouts ≠ p.timeouts ↔ m.researchCompleted = false) ∧
    (m.researchCompleted = true →
      (WebSocketManager.onclose m p).timeouts = p.timeouts ∧
      (WebSocketManager.onclose m p).liveOutput = p.liveOutput) := by
  cases hc : m.researchCompleted <;> cases hr : m.isResearching <;>
    simp [WebSocketManager.onclose, WebSocketManager.updateConnectionStatus, Page.addLog,
      Page.setTimeout, hc, hr]

/-- C1 at a manager that has completed its run and one that is mid-run. -/
theorem onclose_reconnect_policy_witness :
    (WebSocketManager.onclose
        { ws := some ReadyState.closed, researchCompleted := true, isResearching := false }
        (samplePage "")).liveOutput = [] ∧
    (WebSocketManager.onclose
        { ws := some ReadyState.closed, researchCompleted := false, isResearching := true }
        (samplePage "")).timeouts =
      [{ id := 1, delay := 3000, action := TimeoutAction.reconnect }] :=
  ⟨((onclose_reconnect_policy
      { ws := some ReadyState.closed, researchCompleted := true, isResearching := false }
      (samplePage "")).2.2 rfl).2,
   (onclose_reconnect_policy
      { ws := some ReadyState.closed, researchCompleted := false, isResearching := true }
      (samplePage "")).1⟩

/-! ## Accumulation of the report -/

/-- C2, refuted as stated: on the freshly constructed application no report
stage is active (`currentReportNode` is `null`), yet a chunk addressed to the
report-producing stage is appended to the buffer. -/
theorem chunk_appended_without_active_stage :
    sampleApp.currentReportNode = none ∧
    sampleApp.reportBuffer = "" ∧
    (sampleApp.handleStreamingChunk (some "synthesize_and_report")
      (some "x")).state.reportBuffer = "x" := by
  refine ⟨rfl, rfl, ?_⟩
  simp [ResearchApp.handleStreamingChunk, ResearchApp.reportNode, ResearchApp.done,
    ResearchApp.updateReportContent, sampleApp, ResearchApp.new, ResearchApp.initMarkdown]

/-- C2, amended: for a non-null chunk the buffer after `handleStreamingChunk`
is `buffer ++ chunk` when `node` is the literal id of the report-producing
stage, whatever `currentReportNode` holds, and the unchanged buffer for every
other `node`. -/
theorem handleStreamingChunk_buffer (a : ResearchApp) (node : Option String) (chunk : String) :
    (a.handleStreamingChunk node (some chunk)).state.reportBuffer =
      (if node = some "synthesize_and_report" then a.reportBuffer ++ chunk
       else a.reportBuffer) := by
  unfold ResearchApp.handleStreamingChunk
  by_cases h : node = some "synthesize_and_report"
  · simp [h, ResearchApp.reportNode, ResearchApp.done, ResearchApp.updateReportContent]
  · simp only [ResearchApp.reportNode, h, if_false]
    by_cases ht : jsTrim chunk = ""
    · simp [ht, ResearchApp.done]
    · cases node <;> simp [ht, ResearchApp.done, ResearchApp.addStreamingChunk]

/-- Joining a list of strings, one step. -/
theorem join_cons (c : String) (cs : List String) :
    String.join (c :: cs) = c ++ String.join cs := by
  apply String.ext
  simp [String.join_eq]

/-- The empty list is the first initial segment. -/
theorem inits_eq_nil_cons_tail {α : Type} (l : List α) : l.inits = [] :: l.inits.tail := by
  cases l <;> simp [List.inits_cons]

/-- A chunk for the report-producing stage: the buffer grows and one render
pass is requested with the grown buffer. -/
theorem dispatch_report_chunk (a : ResearchApp) (c : String) :
    a.dispatch (Update.streamingChunk "synthesize_and_report" c) =
      ResearchApp.updateReportContent { a with reportBuffer := a.reportBuffer ++ c }
        (a.reportBuffer ++ c) := by
  simp [ResearchApp.dispatch, ResearchApp.handleGraphUpdate, Update.streamingChunk,
    ResearchApp.handleStreamingChunk, ResearchApp.reportNode, ResearchApp.done]

/-- A run of chunks for the report-producing stage while it is active. -/
theorem run_report_chunks (cs : List String) :
    ∀ a : ResearchApp, a.currentReportNode = some "synthesize_and_report" →
      (a.run (cs.map (Update.streamingChunk "synthesize_and_report"))).reportBuffer =
          a.reportBuffer ++ String.join cs ∧
      (a.run (cs.map (Update.streamingChunk "synthesize_and_report"))).currentReportNode =
          some "synthesize_and_report" ∧
      (a.run (cs.map (Update.streamingChunk "synthesize_and_report"))).page.renders =
          a.page.renders ++
            cs.inits.tail.map
              (fun pre => { content := a.reportBuffer ++ String.join pre, progress := true }) := by
  induction cs with
  | nil => intro a h; simp [ResearchApp.run, h, String.join]
  | cons c cs ih =>
    intro a h
    have hstep : a.run ((c :: cs).map (Update.streamingChunk "synthesize_and_report")) =
        (a.dispatch (Update.streamingChunk "synthesize_and_report" c)).run
          (cs.map (Update.streamingChunk "synthesize_and_report")) := by
      simp [ResearchApp.run]
    have h1 : (a.dispatch (Update.streamingChunk "synthesize_and_report" c)).currentReportNode =
        some "synthesize_and_report" := by
      rw [dispatch_report_chunk]; simpa [ResearchApp.updateReportContent] using h
    obtain ⟨ihb, ihc, ihr⟩ := ih _ h1
    rw [hstep]
    refine ⟨?_, ihc, ?_⟩
    · rw [ihb, dispatch_report_chunk]
      simp [ResearchApp.updateReportContent, join_cons, String.append_assoc]
    · rw [ihr, dispatch_report_chunk, List.inits_cons, List.tail_cons,
        inits_eq_nil_cons_tail cs]
      have hnil : String.join [] = "" := rfl
      simp [ResearchApp.updateReportContent, ResearchApp.reportNode, h, join_cons,
        String.append_assoc, hnil, Function.comp_def]

/-- C3: for every starting state and every list of chunks, the start of the
report stage, the chunks in order and the completion of the stage leave the
buffer equal to the verbatim concatenation of the chunks and no active report
stage; each chunk requests a render pass of the text so far with the progress
indicator, the completion requests one of the whole text without it; none of
the events raises. -/
theorem report_stream_scenario (a : ResearchApp) (cs : List String) :
    let a1 := a.dispatch (Update.nodeStart "synthesize_and_report")
    let a2 := a1.run (cs.map (Update.streamingChunk "synthesize_and_report"))
    let a3 := a2.dispatch (Update.nodeComplete "synthesize_and_report")
    a3.reportBuffer = String.join cs ∧
    a3.currentReportNode = none ∧
    a3.page.renders =
      a.page.renders ++
        cs.inits.tail.map (fun pre => { content := String.join pre, progress := true }) ++
        [{ content := String.join cs, progress := false }] ∧
    (a.handleGraphUpdate
      (JsonValue.object (Update.nodeStart "synthesize_and_report"))).raised = none ∧
    (∀ (s : ResearchApp) (c : String), (s.handleGraphUpdate
      (JsonValue.object (Update.streamingChunk "synthesize_and_report" c))).raised = none) ∧
    (∀ s : ResearchApp, (s.handleGraphUpdate
      (JsonValue.object (Update.nodeComplete "synthesize_and_report"))).raised = none) := by
  intro a1 a2 a3
  have hstart :
      a1.reportBuffer = "" ∧ a1.currentReportNode = some "synthesize_and_report" ∧
      a1.page.renders = a.page.renders := by
    simp [a1, ResearchApp.dispatch, ResearchApp.handleGraphUpdate, Update.nodeStart,
      ResearchApp.handleNodeStart, ResearchApp.reportNode, ResearchApp.done, startsWith,
      ResearchApp.showReportSection, ResearchApp.addLog, Page.addLog]
  obtain ⟨hb1, hc1, hr1⟩ := hstart
  obtain ⟨hb2, _, hr2⟩ := run_report_chunks cs a1 hc1
  have hfin :
      a3.reportBuffer = a2.reportBuffer ∧ a3.currentReportNode = none ∧
      a3.page.renders = a2.page.renders ++ [{ content := a2.reportBuffer, progress := false }] := by
    simp [a3, ResearchApp.dispatch, ResearchApp.handleGraphUpdate, Update.nodeComplete,
      ResearchApp.handleNodeComplete, ResearchApp.reportNode, ResearchApp.done, startsWith,
      ResearchApp.updateReportContent, ResearchApp.addLog, Page.addLog]
  obtain ⟨hb3, hc3, hr3⟩ := hfin
  have hb2k : a2.reportBuffer = String.join cs := by
    simpa [hb1] using hb2
  refine ⟨by rw [hb3, hb2k], hc3, ?_, ?_, ?_, ?_⟩
  · rw [hr3, hb2k]
    have : a2.page.renders = a.page.renders ++
        cs.inits.tail.map (fun pre => { content := String.join pre, progress := true }) := by
      simpa [hb1, hr1] using hr2
    rw [this]
  · simp [ResearchApp.handleGraphUpdate, Update.nodeStart, ResearchApp.handleNodeStart,
      ResearchApp.reportNode, ResearchApp.done]
  · intro s c
    simp [ResearchApp.handleGraphUpdate, Update.streamingChunk,
      ResearchApp.handleStreamingChunk, ResearchApp.reportNode, ResearchApp.done]
  · intro s
    simp [ResearchApp.handleGraphUpdate, Update.nodeComplete, ResearchApp.handleNodeComplete,
      ResearchApp.reportNode, ResearchApp.done]

/-- The scenario of C3 on the sample application: the chunks `"# Title\n"` and
`"body"` give the report `"# Title\nbody"`. -/
theorem report_stream_scenario_title_body :
    (sampleApp.run
      [Update.nodeStart "synthesize_and_report",
       Update.streamingChunk "synthesize_and_report" "# Title\n",
       Update.streamingChunk "synthesize_and_report" "body",
       Update.nodeComplete "synthesize_and_report"]).reportBuffer = "# Title\nbody" :=
  (report_stream_scenario sampleApp ["# Title\n", "body"]).1.trans (by decide)

/-! ## Session flags -/

/-- The two session flags after one delivered update: unchanged, or one of the
three pairs `setResearchState` is called with. -/
theorem dispatch_flags (a : ResearchApp) (u : Update) :
    (a.dispatch u).wsManager = a.wsManager ∨
    ((a.dispatch u).wsManager.isResearching = true ∧
      (a.dispatch u).wsManager.researchCompleted = false) ∨
    ((a.dispatch u).wsManager.isResearching = false ∧
      (a.dispatch u).wsManager.researchCompleted = true) ∨
    ((a.dispatch u).wsManager.isResearching = false ∧
      (a.dispatch u).wsManager.researchCompleted = false) := by
  unfold ResearchApp.dispatch ResearchApp.handleGraphUpdate
  simp only
  split_ifs
  · right; left
    simp [ResearchApp.done, ResearchApp.startExecution, ResearchApp.addLog,
      ResearchApp.resetReportSection, WebSocketManager.setResearchState, Page.setInterval]
  · left
    cases hn : u.node with
    | none => simp [ResearchApp.handleNodeStart]
    | some n =>
      simp only [ResearchApp.handleNodeStart, ResearchApp.done]
      split_ifs <;> simp [ResearchApp.addLog, ResearchApp.showReportSection]
  · left
    cases hn : u.node with
    | none => simp [ResearchApp.handleNodeComplete]
    | some n =>
      simp only [ResearchApp.handleNodeComplete, ResearchApp.done]
      split_ifs <;> simp [ResearchApp.addLog, ResearchApp.updateReportContent]
  · left
    cases hc : u.chunk with
    | none => simp [ResearchApp.handleStreamingChunk, ResearchApp.done]
    | some c =>
      simp only [ResearchApp.handleStreamingChunk, ResearchApp.done]
      split_ifs
      · simp [ResearchApp.updateReportContent]
      · rfl
      · cases u.node <;> simp [ResearchApp.addStreamingChunk]
  · right; right; left
    simp [ResearchApp.done, ResearchApp.completeExecution, ResearchApp.addLog,
      WebSocketManager.setResearchState]
  · cases hn : u.node with
    | none => left; simp [ResearchApp.handleError]
    | some n =>
      right; right; right
      simp [ResearchApp.handleError, ResearchApp.done, ResearchApp.addLog,
        WebSocketManager.setResearchState]
  · left; rfl

/-- Exclusion of the two flags survives any sequence of delivered updates. -/
theorem run_flags_exclusive (us : List Update) :
    ∀ a : ResearchApp,
      ¬ (a.wsManager.isResearching = true ∧ a.wsManager.researchCompleted = true) →
      ¬ ((a.run us).wsManager.isResearching = true ∧
          (a.run us).wsManager.researchCompleted = true) := by
  induction us with
  | nil => intro a h; simpa [ResearchApp.run] using h
  | cons u us ih =>
    intro a h
    have hrun : a.run (u :: us) = (a.dispatch u).run us := by simp [ResearchApp.run]
    rw [hrun]
    apply ih
    rcases dispatch_flags a u with h1 | ⟨h1, h2⟩ | ⟨h1, h2⟩ | ⟨h1, h2⟩
    · rw [h1]; exact h
    · simp [h1, h2]
    · simp [h1, h2]
    · simp [h1, h2]

/-- C4: in every state reached from the constructed application by a finite
sequence of inbound updates, `isResearching` and `researchCompleted` are not
both true; an update of type `start` leaves the session active and not
completed, an update of type `complete` leaves it not active and completed. -/
theorem session_flags_exclusive (T : List NodeEl) (p : Page) (showdownLoaded : Bool)
    (us : List Update) :
    ¬ (((ResearchApp.new T p showdownLoaded).run us).wsManager.isResearching = true ∧
        ((ResearchApp.new T p showdownLoaded).run us).wsManager.researchCompleted = true) ∧
    (∀ (a : ResearchApp) (u : Update), u.type = some "start" →
      (a.dispatch u).wsManager.isResearching = true ∧
      (a.dispatch u).wsManager.researchCompleted = false) ∧
    (∀ (a : ResearchApp) (u : Update), u.type = some "complete" →
      (a.dispatch u).wsManager.isResearching = false ∧
      (a.dispatch u).wsManager.researchCompleted = true) := by
  refine ⟨?_, ?_, ?_⟩
  · apply run_flags_exclusive
    cases showdownLoaded <;>
      simp [ResearchApp.new, ResearchApp.initMarkdown, ResearchApp.addLog,
        WebSocketManager.new, WebSocketManager.connect]
  · intro a u hu
    simp [ResearchApp.dispatch, ResearchApp.handleGraphUpdate, hu, ResearchApp.done,
      ResearchApp.startExecution, ResearchApp.addLog, ResearchApp.resetReportSection,
      WebSocketManager.setResearchState, Page.setInterval]
  · intro a u hu
    simp [ResearchApp.dispatch, ResearchApp.handleGraphUpdate, hu, ResearchApp.done,
      ResearchApp.completeExecution, ResearchApp.addLog, WebSocketManager.setResearchState]

/-- C4 on the sample application: a run that starts, fails and completes. -/
theorem session_flags_exclusive_witness :
    (((sampleApp.run [Update.start, Update.failure "merge_search_results" "boom"]).dispatch
        Update.complete).wsManager.isResearching = false ∧
     ((sampleApp.run [Update.start, Update.failure "merge_search_results" "boom"]).dispatch
        Update.complete).wsManager.researchCompleted = true) :=
  (session_flags_exclusive sampleTemplate (samplePage "") true []).2.2
    (sampleApp.run [Update.start, Update.failure "merge_search_results" "boom"])
    Update.complete rfl

/-! ## Lists of node elements -/

theorem hasId_eq_true_iff (id : String) (l : List NodeEl) :
    hasId id l = true ↔ id ∈ l.map (fun e => e.id) := by
  induction l with
  | nil => simp [hasId]
  | cons e es ih =>
    simp only [hasId, List.any_cons, Bool.or_eq_true, beq_iff_eq, List.map_cons, List.mem_cons]
    constructor
    · rintro (h | h)
      · exact Or.inl h.symm
      · exact Or.inr (ih.mp h)
    · rintro (h | h)
      · exact Or.inl h.symm
      · exact Or.inr (ih.mpr h)

theorem modifyFirst_of_not_mem (id : String) (f : NodeEl → NodeEl) (l : List NodeEl)
    (h : id ∉ l.map (fun e => e.id)) : modifyFirst id f l = l := by
  induction l with
  | nil => rfl
  | cons e es ih =>
    simp only [List.map_cons, List.mem_cons, not_or] at h
    have he : (e.id == id) = false := by
      simpa using fun hh : e.id = id => h.1 hh.symm
    simp [modifyFirst, he, ih h.2]

theorem map_id_modifyFirst (id : String) (f : NodeEl → NodeEl) (hf : ∀ e, (f e).id = e.id)
    (l : List NodeEl) :
    (modifyFirst id f l).map (fun e => e.id) = l.map (fun e => e.id) := by
  induction l with
  | nil => rfl
  | cons e es ih =>
    by_cases he : (e.id == id) = true
    · simp [modifyFirst, he, hf]
    · simp [modifyFirst, he, ih]

theorem modifyFirst_comm (a b : String) (hab : a ≠ b) (f g : NodeEl → NodeEl)
    (hf : ∀ e, (f e).id = e.id) (hg : ∀ e, (g e).id = e.id) (l : List NodeEl) :
    modifyFirst a f (modifyFirst b g l) = modifyFirst b g (modifyFirst a f l) := by
  induction l with
  | nil => rfl
  | cons e es ih =>
    by_cases ha : e.id = a
    · have hb : ¬ e.id = b := fun h => hab (ha.symm.trans h)
      have hb2 : ¬ a = b := hab
      simp [modifyFirst, ha, hb2, hf]
    · by_cases hb : e.id = b
      · have hba : ¬ b = a := fun h => hab h.symm
        simp [modifyFirst, hb, hba, hg]
      · simp [modifyFirst, ha, hb, ih]

theorem modifyFirst_fuse (a : String) (f g : NodeEl → NodeEl)
    (hg : ∀ e, (g e).id = e.id) (l : List NodeEl) :
    modifyFirst a f (modifyFirst a g l) = modifyFirst a (fun e => f (g e)) l := by
  induction l with
  | nil => rfl
  | cons e es ih =>
    by_cases ha : e.id = a
    · simp [modifyFirst, ha, hg]
    · simp [modifyFirst, ha, ih]

theorem findFirst_modifyFirst (id : String) (f : NodeEl → NodeEl)
    (hf : ∀ e, (f e).id = e.id) (l : List NodeEl) :
    findFirst id (modifyFirst id f l) = (findFirst id l).map f := by
  induction l with
  | nil => rfl
  | cons e es ih =>
    by_cases ha : e.id = id
    · simp [modifyFirst, findFirst, ha, hf]
    · simp [modifyFirst, findFirst, ha, ih]

theorem findFirst_eq_none_iff (id : String) (l : List NodeEl) :
    findFirst id l = none ↔ hasId id l = false := by
  induction l with
  | nil => simp [findFirst, hasId]
  | cons e es ih =>
    by_cases ha : e.id = id
    · simp [findFirst, hasId, ha]
    · simp only [findFirst, hasId, List.any_cons] at ih ⊢
      simp [ha, ih, hasId]

/-! ## Ids of dynamic stages -/

theorem startsWith_dynamic (x : String) : startsWith ("dynamic-" ++ x) "dynamic-" = true := by
  simp [startsWith, String.data_append, List.isPrefixOf_iff_prefix]

theorem dynamic_inj {a b : String} (h : "dynamic-" ++ a = "dynamic-" ++ b) : a = b := by
  have hd := congrArg String.data h
  simp only [String.data_append, List.append_cancel_left_eq] at hd
  exact String.ext hd

theorem staticIds_not_dynamic :
    ∀ i ∈ GraphManager.staticIds, startsWith i "dynamic-" = false := by
  decide

theorem resolveId_cases {nodeName id : String} (h : GraphManager.resolveId nodeName = some id) :
    id ∈ GraphManager.staticIds ∨
    (id = "dynamic-" ++ nodeName ∧ startsWith nodeName "search_query_" = true) := by
  unfold GraphManager.resolveId GraphManager.nodeMapping at h
  split_ifs at h <;> simp at h <;> first
    | (left; subst h; decide)
    | (right; exact ⟨h.symm, by assumption⟩)

theorem setStatus_id (s t : String) (e : NodeEl) : (GraphManager.setStatus s t e).id = e.id := rfl

theorem resetEl_id (e : NodeEl) : (GraphManager.resetEl e).id = e.id := rfl

theorem resetEl_setStatus (s t : String) (e : NodeEl) :
    GraphManager.resetEl (GraphManager.setStatus s t e) = GraphManager.resetEl e := by
  cases e with
  | mk id cls title st => cases st <;> rfl

/-! ## Layouts -/

theorem modifyNode_linear (L : List NodeEl) (id : String) (f : NodeEl → NodeEl) :
    (Flow.linear L).modifyNode id f = Flow.linear (modifyFirst id f L) := by
  unfold Flow.modifyNode Flow.linear
  by_cases h : hasId id L = true
  · simp [h]
  · have hn : id ∉ L.map (fun e => e.id) := fun hm => h ((hasId_eq_true_iff id L).mpr hm)
    simp [h, modifyFirst, modifyFirst_of_not_mem id f L hn]

theorem resetStatic_linear (L : List NodeEl) :
    GraphManager.resetStatic (Flow.linear L) = Flow.linear (resetList L) := by
  simp [GraphManager.resetStatic, resetList, GraphManager.staticIds, modifyNode_linear]

theorem foldl_reset_absorb (s t : String) (ids : List String) :
    ∀ (id : String) (L : List NodeEl), id ∈ ids →
      ids.foldl (fun l i => modifyFirst i GraphManager.resetEl l)
          (modifyFirst id (GraphManager.setStatus s t) L) =
        ids.foldl (fun l i => modifyFirst i GraphManager.resetEl l) L := by
  induction ids with
  | nil => intro id L h; simp at h
  | cons i rest ih =>
    intro id L h
    simp only [List.foldl_cons]
    by_cases hi : i = id
    · subst hi
      rw [modifyFirst_fuse i _ _ (setStatus_id s t)]
      simp only [resetEl_setStatus]
    · have hmem : id ∈ rest := by
        rcases List.mem_cons.mp h with h1 | h1
        · exact absurd h1.symm hi
        · exact h1
      rw [modifyFirst_comm i id hi _ _ resetEl_id (setStatus_id s t)]
      exact ih id _ hmem

theorem resetList_modifyFirst_static (s t id : String) (L : List NodeEl)
    (h : id ∈ GraphManager.staticIds) :
    resetList (modifyFirst id (GraphManager.setStatus s t) L) = resetList L :=
  foldl_reset_absorb s t GraphManager.staticIds id L h

theorem resetList_ne_nil {L T : List NodeEl} (h : resetList L = T) (hT : T ≠ []) : L ≠ [] := by
  intro hL
  subst hL
  exact hT h.symm

theorem modifyNode_before_ids (fl : Flow) (id : String) (f : NodeEl → NodeEl)
    (hf : ∀ e, (f e).id = e.id) :
    (fl.modifyNode id f).before.map (fun e => e.id) = fl.before.map (fun e => e.id) := by
  obtain ⟨bf, area, af⟩ := fl
  cases area with
  | none => simp only [Flow.modifyNode]; split_ifs <;> simp [map_id_modifyFirst id f hf]
  | some ar => simp only [Flow.modifyNode]; split_ifs <;> simp [map_id_modifyFirst id f hf]

theorem modifyNode_after_ids (fl : Flow) (id : String) (f : NodeEl → NodeEl)
    (hf : ∀ e, (f e).id = e.id) :
    (fl.modifyNode id f).after.map (fun e => e.id) = fl.after.map (fun e => e.id) := by
  obtain ⟨bf, area, af⟩ := fl
  cases area with
  | none => simp only [Flow.modifyNode]; split_ifs <;> simp [map_id_modifyFirst id f hf]
  | some ar => simp only [Flow.modifyNode]; split_ifs <;> simp [map_id_modifyFirst id f hf]

theorem modifyNode_areaIds (fl : Flow) (id : String) (f : NodeEl → NodeEl)
    (hf : ∀ e, (f e).id = e.id) :
    (fl.modifyNode id f).areaIds = fl.areaIds := by
  obtain ⟨bf, area, af⟩ := fl
  cases area with
  | none => simp only [Flow.modifyNode, Flow.areaIds]; split_ifs <;> simp
  | some ar =>
    simp only [Flow.modifyNode, Flow.areaIds]
    split_ifs <;> simp [map_id_modifyFirst id f hf]

/-! ## The representation invariant -/

theorem graphInv_new {T : List NodeEl} (hT : TemplateOk T) : GraphInv T (GraphManager.new T) := by
  obtain ⟨_, hreset, hdyn⟩ := hT
  refine ⟨fun _ => rfl, ?_, List.nodup_nil, ?_, T, rfl, ?_⟩
  · intro ids h
    simp [GraphManager.new, Flow.linear, Flow.areaIds] at h
  · intro i hi
    simp only [GraphManager.new, Flow.linear, List.append_nil, List.mem_map] at hi
    obtain ⟨e, he, rfl⟩ := hi
    exact hdyn e he
  · rw [resetStatic_linear] at hreset
    exact congrArg Flow.before hreset

theorem graphInv_update {T : List NodeEl} {g : GraphManager} (h : GraphInv T g)
    (nodeName status statusText : String) :
    GraphInv T (g.updateNodeStatus nodeName status statusText) := by
  unfold GraphManager.updateNodeStatus
  cases hr : GraphManager.resolveId nodeName with
  | none => exact h
  | some id =>
    obtain ⟨h1, h2, h3, h4, L, h5, h6⟩ := h
    have hid := setStatus_id status statusText
    refine ⟨?_, ?_, h3, ?_, ?_⟩
    · simpa [modifyNode_areaIds _ _ _ hid] using h1
    · simpa [modifyNode_areaIds _ _ _ hid] using h2
    · intro i hi
      apply h4
      simpa [List.map_append, modifyNode_before_ids _ _ _ hid,
        modifyNode_after_ids _ _ _ hid] using hi
    · cases ho : g.originalFlow with
      | some snap => exact ⟨L, by simpa [ho] using h5, h6⟩
      | none =>
        have hfl : g.flow = Flow.linear L := by simpa [ho] using h5
        refine ⟨modifyFirst id (GraphManager.setStatus status statusText) L, ?_, ?_⟩
        · simp [ho, hfl, modifyNode_linear]
        · rcases resolveId_cases hr with hs | ⟨hd, _⟩
          · rw [resetList_modifyFirst_static _ _ _ _ hs]; exact h6
          · have hnot : id ∉ L.map (fun e => e.id) := by
              intro hm
              have hh := h4 id (by simpa [hfl, Flow.linear] using hm)
              rw [hd, startsWith_dynamic] at hh
              cases hh
            rw [modifyFirst_of_not_mem _ _ _ hnot]; exact h6

theorem create_of_exists (g : GraphManager) (nodeName : String)
    (hex : g.flow.hasElement ("dynamic-" ++ nodeName) = true) :
    g.createDynamicSearchNode nodeName = g := by
  simp [GraphManager.createDynamicSearchNode, hex]

theorem create_dynamicNodes (g : GraphManager) (nodeName : String)
    (hex : g.flow.hasElement ("dynamic-" ++ nodeName) = false) :
    (g.createDynamicSearchNode nodeName).dynamicNodes = g.dynamicNodes ++ [nodeName] := by
  by_cases hs : g.hasSnapshot = true <;> by_cases hl : g.dynamicNodes.length = 0 <;>
    simp [GraphManager.createDynamicSearchNode, hex, hs, hl,
      GraphManager.createDynamicBranchingLayout]

theorem create_originalFlow (g : GraphManager) (nodeName : String)
    (hex : g.flow.hasElement ("dynamic-" ++ nodeName) = false) :
    (g.createDynamicSearchNode nodeName).originalFlow =
      if g.hasSnapshot then g.originalFlow else some g.flow := by
  by_cases hs : g.hasSnapshot = true <;> by_cases hl : g.dynamicNodes.length = 0 <;>
    simp [GraphManager.createDynamicSearchNode, hex, hs, hl,
      GraphManager.createDynamicBranchingLayout]

theorem create_flow_first (g : GraphManager) (nodeName : String)
    (hex : g.flow.hasElement ("dynamic-" ++ nodeName) = false) (hd : g.dynamicNodes = []) :
    (g.createDynamicSearchNode nodeName).flow =
      { GraphManager.branchingLayout with
        area := some { info := toString (g.dynamicNodes.length + 1) ++ "個の並行検索実行中",
                       children := [GraphManager.dynamicEl nodeName] } } := by
  by_cases hs : g.hasSnapshot = true <;>
    simp [GraphManager.createDynamicSearchNode, hex, hs, hd,
      GraphManager.createDynamicBranchingLayout, GraphManager.branchingLayout]

theorem create_flow_next (g : GraphManager) (nodeName : String) (ar : BranchArea)
    (hex : g.flow.hasElement ("dynamic-" ++ nodeName) = false) (hd : g.dynamicNodes ≠ [])
    (ha : g.flow.area = some ar) :
    (g.createDynamicSearchNode nodeName).flow =
      { g.flow with
        area := some { info := toString (g.dynamicNodes.length + 1) ++ "個の並行検索実行中",
                       children := ar.children ++ [GraphManager.dynamicEl nodeName] } } := by
  by_cases hs : g.hasSnapshot = true <;>
    simp [GraphManager.createDynamicSearchNode, hex, hs, hd, ha,
      GraphManager.createDynamicBranchingLayout]

theorem branchingLayout_static_ids :
    ∀ i ∈ (GraphManager.branchingLayout.before ++ GraphManager.branchingLayout.after).map
        (fun e => e.id), startsWith i "dynamic-" = false := by
  decide

theorem graphInv_create {T : List NodeEl} {g : GraphManager} (hT : TemplateOk T)
    (h : GraphInv T g) (nodeName : String) :
    GraphInv T (g.createDynamicSearchNode nodeName) := by
  by_cases hex : g.flow.hasElement ("dynamic-" ++ nodeName) = true
  · rw [create_of_exists g nodeName hex]; exact h
  · have hex2 : g.flow.hasElement ("dynamic-" ++ nodeName) = false := by simpa using hex
    obtain ⟨h1, h2, h3, h4, L, h5, h6⟩ := h
    have hLne : L ≠ [] := resetList_ne_nil h6 hT.1
    have hdn := create_dynamicNodes g nodeName hex2
    have horig : (g.createDynamicSearchNode nodeName).originalFlow = some (Flow.linear L) := by
      rw [create_originalFlow g nodeName hex2]
      cases ho : g.originalFlow with
      | none =>
        have hfl : g.flow = Flow.linear L := by simpa [ho] using h5
        simp [GraphManager.hasSnapshot, ho, hfl]
      | some snap =>
        have hsn : snap = Flow.linear L := by simpa [ho] using h5
        simp [GraphManager.hasSnapshot, ho, hsn, Flow.isEmptyMarkup, Flow.linear, hLne]
    by_cases hd : g.dynamicNodes = []
    · have hfl := create_flow_first g nodeName hex2 hd
      refine ⟨?_, ?_, ?_, ?_, L, ?_, h6⟩
      · intro hnone
        rw [hfl] at hnone
        simp [Flow.areaIds] at hnone
      · intro ids hids
        rw [hfl] at hids
        simp only [Flow.areaIds, Option.map_some', Option.some.injEq] at hids
        rw [hdn, hd, ← hids]
        simp [GraphManager.dynamicEl]
      · rw [hdn, hd]; simp
      · intro i hi
        rw [hfl] at hi
        exact branchingLayout_static_ids i hi
      · rw [horig]
    · cases ha : g.flow.area with
      | none =>
        exact absurd (h1 (by simp [Flow.areaIds, ha])) hd
      | some ar =>
        have hfl := create_flow_next g nodeName ar hex2 hd ha
        have hids : ar.children.map (fun e => e.id) =
            g.dynamicNodes.map (fun n => "dynamic-" ++ n) :=
          h2 _ (by simp [Flow.areaIds, ha])
        refine ⟨?_, ?_, ?_, ?_, L, ?_, h6⟩
        · intro hnone
          rw [hfl] at hnone
          simp [Flow.areaIds] at hnone
        · intro ids hi
          rw [hfl] at hi
          simp only [Flow.areaIds, Option.map_some', Option.some.injEq] at hi
          rw [hdn, ← hi]
          simp [GraphManager.dynamicEl, hids]
        · rw [hdn]
          refine List.nodup_append.mpr ⟨h3, List.nodup_singleton _, ?_⟩
          intro x hx hx2
          have hxe : x = nodeName := by simpa using hx2
          subst hxe
          have hmem : "dynamic-" ++ x ∈ ar.children.map (fun e => e.id) := by
            rw [hids]; exact List.mem_map_of_mem _ hx
          have hhas : hasId ("dynamic-" ++ x) ar.children = true :=
            (hasId_eq_true_iff _ _).mpr hmem
          simp [Flow.hasElement, ha, hhas] at hex2
        · intro i hi
          rw [hfl] at hi
          exact h4 i hi
        · rw [horig]

theorem reset_eq_new {T : List NodeEl} {g : GraphManager} (hT : TemplateOk T)
    (h : GraphInv T g) : g.resetNodes = GraphManager.new T := by
  obtain ⟨_, _, _, _, L, h5, h6⟩ := h
  have hLne : L ≠ [] := resetList_ne_nil h6 hT.1
  cases ho : g.originalFlow with
  | none =>
    have hfl : g.flow = Flow.linear L := by simpa [ho] using h5
    simp [GraphManager.resetNodes, ho, hfl, resetStatic_linear, h6, GraphManager.new]
  | some snap =>
    have hsn : snap = Flow.linear L := by simpa [ho] using h5
    have hne : (Flow.linear L).isEmptyMarkup = false := by
      simp [Flow.isEmptyMarkup, Flow.linear, hLne]
    simp [GraphManager.resetNodes, ho, hsn, hne, resetStatic_linear, h6, GraphManager.new]

theorem graphInv_of_reachable {T : List NodeEl} (hT : TemplateOk T) {g : GraphManager}
    (h : Reachable T g) : GraphInv T g := by
  induction h with
  | init => exact graphInv_new hT
  | create g nodeName _ ih => exact graphInv_create hT ih nodeName
  | update g nodeName status statusText _ ih => exact graphInv_update ih nodeName status statusText
  | reset g _ ih => rw [reset_eq_new hT ih]; exact graphInv_new hT

theorem reachable_of_plain {T : List NodeEl} {g : GraphManager} (h : ReachablePlain T g) :
    Reachable T g := by
  induction h with
  | init => exact Reachable.init
  | create g nodeName _ _ ih => exact Reachable.create g nodeName ih
  | update g nodeName status statusText _ ih =>
    exact Reachable.update g nodeName status statusText ih
  | reset g _ ih => exact Reachable.reset g ih

theorem templateOk_sample : TemplateOk sampleTemplate := by
  refine ⟨by decide, by decide, by decide⟩

/-! ## Dynamic stages -/

theorem filter_id_length (id : String) (l : List NodeEl) :
    (l.filter (fun e => e.id == id)).length = (l.map (fun e => e.id)).count id := by
  induction l with
  | nil => rfl
  | cons e es ih =>
    by_cases h : e.id = id
    · simp [List.filter_cons, h, ih]
    · simp [List.filter_cons, List.count_cons, h, ih]

theorem dynamic_ne_area {id : String} (hid : startsWith id "search_query_" = true) :
    ("dynamic-" ++ id == "dynamic-branching-area") = false := by
  rw [beq_eq_false_iff_ne]
  intro h
  have h2 : "dynamic-" ++ id = "dynamic-" ++ "branching-area" := h.trans (by decide)
  have h3 := dynamic_inj h2
  subst h3
  exact absurd hid (by decide)

theorem hasElement_iff_mem {T : List NodeEl} {g : GraphManager} (h : GraphInv T g)
    {id : String} (hid : startsWith id "search_query_" = true) :
    g.flow.hasElement ("dynamic-" ++ id) = true ↔ id ∈ g.dynamicNodes := by
  obtain ⟨h1, h2, _, h4, _⟩ := h
  have hb : hasId ("dynamic-" ++ id) g.flow.before = false := by
    rw [Bool.eq_false_iff]
    intro hh
    have hm := (hasId_eq_true_iff _ _).mp hh
    have := h4 _ (by rw [List.map_append]; exact List.mem_append_left _ hm)
    rw [startsWith_dynamic] at this
    cases this
  have haf : hasId ("dynamic-" ++ id) g.flow.after = false := by
    rw [Bool.eq_false_iff]
    intro hh
    have hm := (hasId_eq_true_iff _ _).mp hh
    have := h4 _ (by rw [List.map_append]; exact List.mem_append_right _ hm)
    rw [startsWith_dynamic] at this
    cases this
  cases ha : g.flow.area with
  | none =>
    have hd : g.dynamicNodes = [] := h1 (by simp [Flow.areaIds, ha])
    simp [Flow.hasElement, ha, hb, haf, hd]
  | some ar =>
    have hids : ar.children.map (fun e => e.id) =
        g.dynamicNodes.map (fun n => "dynamic-" ++ n) :=
      h2 _ (by simp [Flow.areaIds, ha])
    simp only [Flow.hasElement, ha, hb, haf, dynamic_ne_area hid, Bool.false_or, Bool.or_false]
    rw [hasId_eq_true_iff, hids, List.mem_map]
    constructor
    · rintro ⟨n, hn, hnn⟩
      rw [← dynamic_inj hnn]; exact hn
    · intro hm
      exact ⟨id, hm, rfl⟩

theorem countId_dynamic {T : List NodeEl} {g : GraphManager} (h : GraphInv T g) (id : String) :
    g.countId ("dynamic-" ++ id) = g.dynamicNodes.count id := by
  obtain ⟨h1, h2, _, h4, _⟩ := h
  have hb : ("dynamic-" ++ id) ∉ (g.flow.before ++ g.flow.after).map (fun e => e.id) := by
    intro hm
    have := h4 _ hm
    rw [startsWith_dynamic] at this
    cases this
  rw [List.map_append, List.mem_append, not_or] at hb
  have hinj : Function.Injective (fun n : String => "dynamic-" ++ n) := fun a b hab => dynamic_inj hab
  unfold GraphManager.countId Flow.nodes
  rw [filter_id_length]
  simp only [List.map_append, List.count_append, List.count_eq_zero.mpr hb.1,
    List.count_eq_zero.mpr hb.2, Nat.zero_add, Nat.add_zero]
  cases ha : g.flow.area with
  | none =>
    have hd : g.dynamicNodes = [] := h1 (by simp [Flow.areaIds, ha])
    simp [hd]
  | some ar =>
    have hids : ar.children.map (fun e => e.id) =
        g.dynamicNodes.map (fun n => "dynamic-" ++ n) :=
      h2 _ (by simp [Flow.areaIds, ha])
    simp only [hids]
    exact List.count_map_of_injective _ _ hinj id

/-- C5, refuted as stated: in the state reached by creating `search_query_1`
once, the first of two further calls for the same id does not increase
`getDynamicNodeCount`. -/
theorem create_existing_adds_nothing :
    ReachablePlain sampleTemplate
      ((GraphManager.new sampleTemplate).createDynamicSearchNode "search_query_1") ∧
    (((GraphManager.new sampleTemplate).createDynamicSearchNode
        "search_query_1").createDynamicSearchNode "search_query_1").getDynamicNodeCount =
      ((GraphManager.new sampleTemplate).createDynamicSearchNode
        "search_query_1").getDynamicNodeCount ∧
    (((GraphManager.new sampleTemplate).createDynamicSearchNode
        "search_query_1").createDynamicSearchNode "search_query_1").getDynamicNodeCount ≠
      ((GraphManager.new sampleTemplate).createDynamicSearchNode
        "search_query_1").getDynamicNodeCount + 1 :=
  ⟨ReachablePlain.create _ _ (by decide) ReachablePlain.init, by decide, by decide⟩

/-- C5, amended: in every graph state reached with dynamic stages whose
names are plain text, and for every plain-text id that begins with
`search_query_`, a second `createDynamicSearchNode(id)` changes nothing; after
the first call the id occurs exactly once in `dynamicNodes` and exactly one
node element has the id `dynamic-` followed by it; the first call raises
`getDynamicNodeCount` by one when no such element existed before it and by zero
when one did, the second call by zero. -/
theorem createDynamicSearchNode_idempotent (T : List NodeEl) (hT : TemplateOk T)
    (g : GraphManager) (hg : ReachablePlain T g) (id : String)
    (_hplain : GraphManager.plainText id = true)
    (hid : startsWith id "search_query_" = true) :
    (g.createDynamicSearchNode id).createDynamicSearchNode id = g.createDynamicSearchNode id ∧
    (g.createDynamicSearchNode id).dynamicNodes.count id = 1 ∧
    (g.createDynamicSearchNode id).countId ("dynamic-" ++ id) = 1 ∧
    ((g.createDynamicSearchNode id).createDynamicSearchNode id).getDynamicNodeCount =
      (g.createDynamicSearchNode id).getDynamicNodeCount ∧
    (g.createDynamicSearchNode id).getDynamicNodeCount =
      g.getDynamicNodeCount + (if g.flow.hasElement ("dynamic-" ++ id) then 0 else 1) := by
  have hinv := graphInv_of_reachable hT (reachable_of_plain hg)
  have hinv1 := graphInv_create hT hinv id
  have hmem : id ∈ (g.createDynamicSearchNode id).dynamicNodes := by
    by_cases hex : g.flow.hasElement ("dynamic-" ++ id) = true
    · rw [create_of_exists g id hex]
      exact (hasElement_iff_mem hinv hid).mp hex
    · rw [create_dynamicNodes g id (by simpa using hex)]
      simp
  have hidem : (g.createDynamicSearchNode id).createDynamicSearchNode id =
      g.createDynamicSearchNode id :=
    create_of_exists _ id ((hasElement_iff_mem hinv1 hid).mpr hmem)
  have hcount : (g.createDynamicSearchNode id).dynamicNodes.count id = 1 :=
    List.count_eq_one_of_mem hinv1.2.2.1 hmem
  refine ⟨hidem, hcount, ?_, by rw [hidem], ?_⟩
  · rw [countId_dynamic hinv1 id, hcount]
  · by_cases hex : g.flow.hasElement ("dynamic-" ++ id) = true
    · rw [create_of_exists g id hex]; simp [hex]
    · have hex2 : g.flow.hasElement ("dynamic-" ++ id) = false := by simpa using hex
      simp [GraphManager.getDynamicNodeCount, create_dynamicNodes g id hex2, hex2]

/-- C5 on the sample page, after a reset that followed two dynamic stages. -/
theorem createDynamicSearchNode_idempotent_witness :
    TemplateOk sampleTemplate ∧
    GraphManager.plainText "search_query_2" = true ∧
    startsWith "search_query_2" "search_query_" = true ∧
    ((((GraphManager.new sampleTemplate).createDynamicSearchNode
        "search_query_1").resetNodes.createDynamicSearchNode
        "search_query_2").createDynamicSearchNode "search_query_2") =
      (((GraphManager.new sampleTemplate).createDynamicSearchNode
        "search_query_1").resetNodes.createDynamicSearchNode "search_query_2") :=
  ⟨⟨by decide, by decide, by decide⟩, by decide, by decide,
   (createDynamicSearchNode_idempotent sampleTemplate ⟨by decide, by decide, by decide⟩
      ((GraphManager.new sampleTemplate).createDynamicSearchNode "search_query_1").resetNodes
      (ReachablePlain.reset _ (ReachablePlain.create _ _ (by decide) ReachablePlain.init))
      "search_query_2" (by decide) (by decide)).1⟩

/-! ## Reset of the graph -/

theorem findFirst_modifyFirst_ne (id j : String) (hne : j ≠ id) (f : NodeEl → NodeEl)
    (hf : ∀ e, (f e).id = e.id) (l : List NodeEl) :
    findFirst id (modifyFirst j f l) = findFirst id l := by
  induction l with
  | nil => rfl
  | cons e es ih =>
    by_cases hj : e.id = j
    · have hi : ¬ e.id = id := fun h => hne (hj.symm.trans h)
      have hji : ¬ j = id := hne
      simp [modifyFirst, findFirst, hj, hf, hji]
    · by_cases hi : e.id = id
      · have hij : ¬ id = j := fun h => hne h.symm
        simp [modifyFirst, findFirst, hi, hij]
      · simp [modifyFirst, findFirst, hj, hi, ih]

theorem findFirst_foldl_reset (id : String) (ids : List String) :
    ∀ L : List NodeEl, id ∈ ids →
      ∀ e, findFirst id (ids.foldl (fun l i => modifyFirst i GraphManager.resetEl l) L) = some e →
        e.className = "node pending" := by
  induction ids with
  | nil => intro L h; simp at h
  | cons i rest ih =>
    intro L h e he
    simp only [List.foldl_cons] at he
    by_cases hr : id ∈ rest
    · exact ih _ hr e he
    · have hi : i = id := by
        rcases List.mem_cons.mp h with h1 | h1
        · exact h1.symm
        · exact absurd h1 hr
      subst hi
      have hkeep : ∀ (js : List String) (M : List NodeEl), i ∉ js →
          findFirst i (js.foldl (fun l j => modifyFirst j GraphManager.resetEl l) M) =
            findFirst i M := by
        intro js
        induction js with
        | nil => intro M _; rfl
        | cons j js ihj =>
          intro M hj
          simp only [List.mem_cons, not_or] at hj
          simp only [List.foldl_cons]
          rw [ihj _ hj.2, findFirst_modifyFirst_ne i j (fun hh => hj.1 hh.symm) _ resetEl_id]
      rw [hkeep rest _ hr, findFirst_modifyFirst i _ resetEl_id] at he
      cases hf : findFirst i L with
      | none => simp [hf] at he
      | some e0 =>
        simp only [hf, Option.map_some', Option.some.injEq] at he
        rw [← he]; rfl

/-- C6: in every graph state reachable from the initial one, `resetNodes`
produces the initial state again: the layout is the linear layout of the
template, `dynamicNodes` is empty, the snapshot is cleared, and every static
stage that has an element has class `node pending`. -/
theorem resetNodes_restores_initial (T : List NodeEl) (hT : TemplateOk T)
    (g : GraphManager) (hg : Reachable T g) :
    g.resetNodes = GraphManager.new T ∧
    g.resetNodes.flow = Flow.linear T ∧
    g.resetNodes.dynamicNodes = [] ∧
    g.resetNodes.getDynamicNodeCount = 0 ∧
    g.resetNodes.originalFlow = none ∧
    (∀ nodeName id c, GraphManager.nodeMapping nodeName = some id →
      g.resetNodes.classOf nodeName = some c → c = "node pending") := by
  have hinv := graphInv_of_reachable hT hg
  have hnew := reset_eq_new hT hinv
  refine ⟨hnew, by rw [hnew]; rfl, by rw [hnew]; rfl, by rw [hnew]; rfl, by rw [hnew]; rfl, ?_⟩
  intro nodeName id c hmap hc
  have hstatic : id ∈ GraphManager.staticIds := by
    unfold GraphManager.nodeMapping at hmap
    split_ifs at hmap <;> simp at hmap <;> subst hmap <;> decide
  have hfix : resetList T = T := by
    have := hT.2.1
    rw [resetStatic_linear] at this
    exact congrArg Flow.before this
  rw [hnew] at hc
  simp only [GraphManager.classOf, GraphManager.resolveId, hmap, GraphManager.new, Flow.linear,
    Flow.findNode, findFirst] at hc
  cases hf : findFirst id T with
  | none => simp [hf] at hc
  | some e =>
    simp only [hf, Option.map_some', Option.some.injEq] at hc
    rw [← hc]
    apply findFirst_foldl_reset id GraphManager.staticIds T hstatic e
    show findFirst id (resetList T) = some e
    rw [hfix]; exact hf

/-- C6 on the sample page, after a status change and two dynamic stages. -/
theorem resetNodes_restores_initial_witness :
    TemplateOk sampleTemplate ∧
    ((((GraphManager.new sampleTemplate).updateNodeStatus "classify_intent_and_topic"
        "completed" "完了").createDynamicSearchNode "search_query_1").createDynamicSearchNode
        "search_query_2").resetNodes = GraphManager.new sampleTemplate :=
  ⟨⟨by decide, by decide, by decide⟩,
   (resetNodes_restores_initial sampleTemplate ⟨by decide, by decide, by decide⟩ _
      (Reachable.create _ _ (Reachable.create _ _
        (Reachable.update _ _ _ _ Reachable.init)))).1⟩

/-! ## Stage statuses -/

theorem findNode_modifyNode (fl : Flow) (id : String) (f : NodeEl → NodeEl)
    (hf : ∀ e, (f e).id = e.id) :
    (fl.modifyNode id f).findNode id = (fl.findNode id).map f := by
  obtain ⟨bf, area, af⟩ := fl
  by_cases hb : hasId id bf = true
  · have hne : findFirst id bf ≠ none := fun h => by
      rw [findFirst_eq_none_iff] at h; rw [h] at hb; cases hb
    obtain ⟨e, he⟩ := Option.ne_none_iff_exists'.mp hne
    simp [Flow.modifyNode, Flow.findNode, hb, findFirst_modifyFirst id f hf, he]
  · have hb2 : hasId id bf = false := by simpa using hb
    have hn : findFirst id bf = none := (findFirst_eq_none_iff id bf).mpr hb2
    cases area with
    | none => simp [Flow.modifyNode, Flow.findNode, hb2, hn, findFirst_modifyFirst id f hf]
    | some ar =>
      by_cases hid : (id == "dynamic-branching-area") = true
      · simp [Flow.modifyNode, Flow.findNode, hb2, hn, hid]
      · by_cases hc : hasId id ar.children = true
        · have hne : findFirst id ar.children ≠ none := fun h => by
            rw [findFirst_eq_none_iff] at h; rw [h] at hc; cases hc
          obtain ⟨e, he⟩ := Option.ne_none_iff_exists'.mp hne
          simp [Flow.modifyNode, Flow.findNode, hb2, hn, hid, hc,
            findFirst_modifyFirst id f hf, he]
        · have hc2 : hasId id ar.children = false := by simpa using hc
          have hcn : findFirst id ar.children = none :=
            (findFirst_eq_none_iff id ar.children).mpr hc2
          simp [Flow.modifyNode, Flow.findNode, hb2, hn, hid, hc2, hcn,
            findFirst_modifyFirst id f hf]

theorem classOf_updateNodeStatus (g : GraphManager) (nodeName status statusText : String) :
    (g.updateNodeStatus nodeName status statusText).classOf nodeName =
      (g.classOf nodeName).map (fun _ => "node " ++ status) := by
  unfold GraphManager.updateNodeStatus GraphManager.classOf
  cases hr : GraphManager.resolveId nodeName with
  | none => simp [hr]
  | some id =>
    simp only [hr]
    rw [findNode_modifyNode _ _ _ (setStatus_id status statusText)]
    cases g.flow.findNode id <;> simp [GraphManager.setStatus]

/-- C7, refuted as stated: on the sample application a `node_start` for a
completed stage returns it to in-progress, and a `node_complete` for a failed
stage makes it completed. -/
theorem status_moves_backwards :
    (sampleApp.run [Update.nodeStart "classify_intent_and_topic",
        Update.nodeComplete "classify_intent_and_topic"]).graphManager.classOf
      "classify_intent_and_topic" = some "node completed" ∧
    (sampleApp.run [Update.nodeStart "classify_intent_and_topic",
        Update.nodeComplete "classify_intent_and_topic",
        Update.nodeStart "classify_intent_and_topic"]).graphManager.classOf
      "classify_intent_and_topic" = some "node in-progress" ∧
    (sampleApp.run [Update.nodeStart "classify_intent_and_topic",
        Update.failure "classify_intent_and_topic" "boom"]).graphManager.classOf
      "classify_intent_and_topic" = some "node error" ∧
    (sampleApp.run [Update.nodeStart "classify_intent_and_topic",
        Update.failure "classify_intent_and_topic" "boom",
        Update.nodeComplete "classify_intent_and_topic"]).graphManager.classOf
      "classify_intent_and_topic" = some "node completed" := by
  refine ⟨by decide, by decide, by decide, by decide⟩

/-- C7, amended: statuses are overwritten, not ordered. For every state and
every stage name, a `node_start`, `node_complete` or `error` event naming the
stage sets the class of its element, when it has one, to `node in-progress`,
`node completed` or `node error` whatever it was before (for `node_start` the
element is looked up after the dynamic stage has been created, if the name is
a dynamic one); `streaming_chunk` and `complete` events leave the graph as it
is. -/
theorem status_overwritten (a : ResearchApp) (n : String) (u : Update)
    (error node chunk : Option String) :
    (a.handleNodeStart (some n)).state.graphManager.classOf n =
      ((if startsWith n "search_query_" then a.graphManager.createDynamicSearchNode n
        else a.graphManager).classOf n).map (fun _ => "node in-progress") ∧
    (a.handleNodeComplete (some n) u).state.graphManager.classOf n =
      (a.graphManager.classOf n).map (fun _ => "node completed") ∧
    (a.handleError (some n) error).state.graphManager.classOf n =
      (a.graphManager.classOf n).map (fun _ => "node error") ∧
    (a.handleStreamingChunk node chunk).state.graphManager = a.graphManager ∧
    a.completeExecution.graphManager = a.graphManager := by
  refine ⟨?_, ?_, ?_, ?_, ?_⟩
  · have hg : (a.handleNodeStart (some n)).state.graphManager =
        (if startsWith n "search_query_" then a.graphManager.createDynamicSearchNode n
          else a.graphManager).updateNodeStatus n "in-progress" "実行中..." := by
      simp only [ResearchApp.handleNodeStart, ResearchApp.done]
      split_ifs <;> simp [ResearchApp.addLog, ResearchApp.showReportSection]
    rw [hg, classOf_updateNodeStatus]
    rfl
  · have hg : (a.handleNodeComplete (some n) u).state.graphManager =
        a.graphManager.updateNodeStatus n "completed" "完了" := by
      simp only [ResearchApp.handleNodeComplete, ResearchApp.done]
      split_ifs <;> simp [ResearchApp.addLog, ResearchApp.updateReportContent]
    rw [hg, classOf_updateNodeStatus]
    rfl
  · have hg : (a.handleError (some n) error).state.graphManager =
        a.graphManager.updateNodeStatus n "error" "エラー" := by
      simp [ResearchApp.handleError, ResearchApp.done, ResearchApp.addLog]
    rw [hg, classOf_updateNodeStatus]
    rfl
  · cases chunk with
    | none => simp [ResearchApp.handleStreamingChunk, ResearchApp.done]
    | some c =>
      simp only [ResearchApp.handleStreamingChunk, ResearchApp.done]
      split_ifs
      · simp [ResearchApp.updateReportContent]
      · rfl
      · cases node <;> simp [ResearchApp.addStreamingChunk]
  · simp [ResearchApp.completeExecution, ResearchApp.addLog]

/-! ## Malformed frames -/

/-- C8, refuted as stated: on a frame that `JSON.parse` rejects the message
handler does not return normally; the exception escapes it. -/
theorem malformed_frame_raises :
    (ResearchApp.onmessage (some ResearchApp.handleGraphUpdate) sampleApp none).raised =
      some JsError.parseError ∧
    (ResearchApp.onmessage (some ResearchApp.handleGraphUpdate) sampleApp none).raised ≠ none :=
  ⟨rfl, by decide⟩

/-- C8, amended: on a frame that `JSON.parse` rejects, whatever consumer is
registered, the message handler leaves every part of the state as it was (so
the consumer has not run, nothing is logged, the socket is not closed and no
reconnection is scheduled) and the parse exception escapes the handler; that
uncaught exception is the only diagnostic. -/
theorem malformed_frame_dropped
    (callback : Option (ResearchApp → JsonValue → Outcome)) (a : ResearchApp) :
    (ResearchApp.onmessage callback a none).state = a ∧
    (ResearchApp.onmessage callback a none).raised = some JsError.parseError ∧
    (ResearchApp.onmessage callback a none).state.page.liveOutput = a.page.liveOutput ∧
    (ResearchApp.onmessage callback a none).state.page.timeouts = a.page.timeouts ∧
    (ResearchApp.onmessage callback a none).state.wsManager.ws = a.wsManager.ws :=
  ⟨rfl, rfl, rfl, rfl, rfl⟩

/-! ## Outbound requests -/

/-- C9: `startResearch` sends exactly when the trimmed input is not empty and
the socket is open; what it sends is the message of type `research` carrying
the trimmed input; the input field is emptied exactly when it sent. With an
empty trimmed input the only effect is the alert; with a socket that is not
open `sendResearchRequest` returns `false`, the only effect is one error log
line and the input field keeps its text. -/
theorem startResearch_sends_iff (a : ResearchApp) :
    (a.startResearch.page.sent =
      if jsTrim a.page.queryInput ≠ "" ∧ a.wsManager.ws = some ReadyState.isOpen then
        a.page.sent ++ [{ type := "research", query := jsTrim a.page.queryInput }]
      else a.page.sent) ∧
    (a.startResearch.page.queryInput =
      if jsTrim a.page.queryInput ≠ "" ∧ a.wsManager.ws = some ReadyState.isOpen then ""
      else a.page.queryInput) ∧
    (jsTrim a.page.queryInput = "" →
      a.startResearch =
        { a with page := { a.page with
            alerts := a.page.alerts ++ ["調査したいトピックを入力してください"] } }) ∧
    (jsTrim a.page.queryInput ≠ "" → a.wsManager.ws ≠ some ReadyState.isOpen →
      (a.wsManager.sendResearchRequest a.page (jsTrim a.page.queryInput)).1 = false ∧
      a.startResearch =
        { a with page := { a.page with
            liveOutput := a.page.liveOutput ++
              [LogEntry.log "WebSocket接続がありません" "error"] } }) := by
  by_cases hq : jsTrim a.page.queryInput = ""
  · simp [ResearchApp.startResearch, hq]
  · by_cases hw : a.wsManager.ws = some ReadyState.isOpen
    · simp [ResearchApp.startResearch, WebSocketManager.sendResearchRequest, hq, hw]
    · simp [ResearchApp.startResearch, WebSocketManager.sendResearchRequest, hq, hw,
        Page.addLog]

/-- C9 on the sample page: a blank submission, and a submission while the
socket is still connecting. -/
theorem startResearch_sends_iff_witness :
    ({ sampleApp with page := samplePage "  \n" } : ResearchApp).startResearch.page.sent = [] ∧
    ({ sampleApp with page := samplePage " go " } : ResearchApp).startResearch.page.queryInput =
      " go " :=
  ⟨(congrArg (fun s => s.page.sent)
      ((startResearch_sends_iff { sampleApp with page := samplePage "  \n" }).2.2.1
        (by decide))).trans rfl,
   (congrArg (fun s => s.page.queryInput)
      ((startResearch_sends_iff { sampleApp with page := samplePage " go " }).2.2.2
        (by decide) (by decide)).2).trans rfl⟩

/-! ## The elapsed-time tick -/

/-- C10, the code at the failing inputs: a single `start` schedules the tick
of timer 1 and a `complete` after it cancels it; but after `start` then `error`
the run is no longer active and the tick of timer 1 is still scheduled; after
two `start` events two ticks are scheduled, and a `complete` after them cancels
only the later one. -/
theorem tick_left_scheduled :
    (sampleApp.run [Update.start]).page.intervals = [1] ∧
    (sampleApp.run [Update.start, Update.complete]).page.intervals = [] ∧
    (sampleApp.run [Update.start,
        Update.failure "classify_intent_and_topic" "boom"]).wsManager.isResearching = false ∧
    (sampleApp.run [Update.start,
        Update.failure "classify_intent_and_topic" "boom"]).page.intervals = [1] ∧
    (sampleApp.run [Update.start, Update.start]).page.intervals = [1, 3] ∧
    (sampleApp.run [Update.start, Update.start, Update.complete]).page.intervals = [1] := by
  refine ⟨by decide, by decide, by decide, by decide, by decide, by decide⟩

/-! ## Fences in the report text -/

theorem fence_data : "```".data = fenceChars := by decide

theorem fenceMarkdown_data : "```markdown".data = fenceChars ++ "markdown".data := by decide

theorem removeGlobal_skip (pat : List Char) (s : List Char) :
    ∀ k, removeGlobal pat k s = removeGlobal pat 0 (s.drop k) := by
  induction s with
  | nil => intro k; cases k <;> simp [removeGlobal]
  | cons c rest ih =>
    intro k
    cases k with
    | zero => rfl
    | succ k => simp only [removeGlobal, List.drop_succ_cons]; exact ih k

theorem removeGlobal_cons_of_not_isPrefix (pat : List Char) (c : Char) (rest : List Char)
    (h : ¬ pat <+: c :: rest) :
    removeGlobal pat 0 (c :: rest) = c :: removeGlobal pat 0 rest := by
  have hb : pat.isPrefixOf (c :: rest) = false := by
    rw [Bool.eq_false_iff]
    intro hh
    exact h (List.isPrefixOf_iff_prefix.mp hh)
  simp [removeGlobal, hb]

theorem removeGlobal_of_isPrefix (pat : List Char) (c : Char) (rest : List Char)
    (h : pat <+: c :: rest) :
    ∃ t : List Char, t.length ≤ rest.length ∧
      removeGlobal pat 0 (c :: rest) = removeGlobal pat 0 t := by
  have hb : pat.isPrefixOf (c :: rest) = true := List.isPrefixOf_iff_prefix.mpr h
  refine ⟨rest.drop (pat.length - 1 +
      (if (rest.drop (pat.length - 1)).head? = some '\n' then 1 else 0)), ?_, ?_⟩
  · rw [List.length_drop]; exact Nat.sub_le _ _
  · simp only [removeGlobal, hb, if_true]
    exact removeGlobal_skip pat rest _

theorem two_ticks_not_created (rest : List Char) (h : ¬ [tick, tick] <+: rest) :
    ¬ [tick, tick] <+: removeGlobal fenceChars 0 rest := by
  cases rest with
  | nil => simp [removeGlobal]
  | cons d r =>
    have hnf : ¬ fenceChars <+: d :: r := by
      intro hf
      apply h
      exact List.IsPrefix.trans (by simp [fenceChars]) hf
    rw [removeGlobal_cons_of_not_isPrefix _ _ _ hnf]
    by_cases hd : d = tick
    · subst hd
      have hr : ¬ [tick] <+: r := by
        intro hh; apply h; simpa using hh
      cases r with
      | nil => simp [removeGlobal]
      | cons e r2 =>
        have he : ¬ tick = e := by
          intro hh; apply hr; simp [hh]
        have hnf2 : ¬ fenceChars <+: e :: r2 := by
          intro hf
          simp [fenceChars] at hf
          exact he hf.1
        rw [removeGlobal_cons_of_not_isPrefix _ _ _ hnf2]
        simp [he]
    · intro hh
      simp only [List.cons_prefix_cons] at hh
      exact hd hh.1.symm

theorem removeGlobal_no_fence :
    ∀ (n : Nat) (s : List Char), s.length ≤ n →
      ¬ fenceChars <:+: removeGlobal fenceChars 0 s := by
  intro n
  induction n with
  | zero =>
    intro s hs
    have : s = [] := List.length_eq_zero.mp (Nat.le_zero.mp hs)
    subst this
    simp [removeGlobal, fenceChars]
  | succ n ih =>
    intro s hs
    cases s with
    | nil => simp [removeGlobal, fenceChars]
    | cons c rest =>
      have hrest : rest.length ≤ n := by simpa using hs
      by_cases hp : fenceChars <+: c :: rest
      · obtain ⟨t, ht, heq⟩ := removeGlobal_of_isPrefix fenceChars c rest hp
        rw [heq]
        exact ih t (Nat.le_trans ht hrest)
      · rw [removeGlobal_cons_of_not_isPrefix _ _ _ hp, List.infix_cons_iff]
        rintro (h | h)
        · have h2 : c = tick ∧ [tick, tick] <+: removeGlobal fenceChars 0 rest := by
            simp only [fenceChars, List.cons_prefix_cons] at h
            exact ⟨h.1.symm, by simpa using h.2⟩
          have hnot : ¬ [tick, tick] <+: rest := by
            intro hh
            apply hp
            rw [h2.1]
            simpa [fenceChars] using hh
          exact two_ticks_not_created rest hnot h2.2
        · exact ih rest hrest h

theorem removeGlobal_of_no_fence (pat : List Char) (hpat : fenceChars <+: pat) :
    ∀ s : List Char, ¬ fenceChars <:+: s → removeGlobal pat 0 s = s := by
  intro s
  induction s with
  | nil => intro _; rfl
  | cons c rest ih =>
    intro h
    have hnp : ¬ pat <+: c :: rest := fun hp => h (hpat.trans hp).isInfix
    rw [removeGlobal_cons_of_not_isPrefix _ _ _ hnp, ih (fun hr => h (List.infix_cons hr))]

/-- C11: for every text the cleaned text contains no three consecutive
backticks; cleaning a cleaned text returns it unchanged; a text without three
consecutive backticks is cleaned to itself; and the text `updateReportContent`
hands to the renderer is the cleaned text. -/
theorem cleanContent_strips_fences (content : String) (a : ResearchApp) :
    ¬ "```".data <:+: (cleanContent content).data ∧
    cleanContent (cleanContent content) = cleanContent content ∧
    (¬ "```".data <:+: content.data → cleanContent content = content) ∧
    (a.updateReportContent content).page.renders.getLast?.map RenderPass.rendererInput =
      some (cleanContent content) := by
  have hkeep : ∀ t : String, ¬ fenceChars <:+: t.data → cleanContent t = t := by
    intro t ht
    apply String.ext
    show removeGlobal "```".data 0 (removeGlobal "```markdown".data 0 t.data) = t.data
    rw [fence_data, fenceMarkdown_data]
    rw [removeGlobal_of_no_fence _ (List.prefix_append _ _) _ ht,
      removeGlobal_of_no_fence _ (List.prefix_refl _) _ ht]
  have hnone : ¬ fenceChars <:+: (cleanContent content).data := by
    show ¬ fenceChars <:+:
      removeGlobal "```".data 0 (removeGlobal "```markdown".data 0 content.data)
    rw [fence_data]
    exact removeGlobal_no_fence _ _ (Nat.le_refl _)
  refine ⟨by rw [fence_data]; exact hnone, hkeep _ hnone, ?_, ?_⟩
  · intro h
    rw [fence_data] at h
    exact hkeep _ h
  · simp [ResearchApp.updateReportContent, RenderPass.rendererInput]

/-- C11 on two texts: a report wrapped in a markdown fence, and a text whose
backticks never come three in a row. -/
theorem cleanContent_strips_fences_witness :
    cleanContent "```markdown\n# T\n```\n" = "# T\n" ∧
    ¬ "```".data <:+: "``a`".data ∧
    cleanContent "``a`" = "``a`" :=
  ⟨by decide, by decide, (cleanContent_strips_fences "``a`" sampleApp).2.2.1 (by decide)⟩

end ResearchAssistant
